import Mathlib

/-!
# IntelCodecLibrary: framing and dispatch of the native codec layer

A shallow embedding of `src/main/native/IntelCompressionCodecJNI.c` and of the
four library wrappers (`lz4-ipp`, `zlib-ipp`, `igzip`, `zstd`).

Modelling conventions

* A buffer is the list of bytes that starts at the pointer the C code holds
  (`in + srcOff`, `out + destOff`): the `src` and `dst` arguments below are those
  regions. The source and the destination region do not overlap.
* Every memory access is bounds checked against the region; an access outside
  of it, and a call through a function pointer that is `NULL`, is undefined
  behaviour in C and makes the embedded function return `none`.
* `int`, `jint` and `int32_t` are `Int`, `uint32_t` and `size_t` are `Nat`; the
  implicit conversions of the C code are the explicit `to_int32`, `to_uint32`
  and `to_size_t` (LP64: `size_t` has 64 bits). Header words are stored in host
  byte order, little endian on the Intel targets of the library.
* The routines of the external libraries are parameters: a routine is a function
  from the arguments it reads to the bytes it stores through its output pointer
  and the values it reports.
* `THROW` records a pending Java exception and lets the C function run on, so a
  dispatcher result carries both the `jint` it returns and the exceptions raised.
  The direct buffers are taken to have an address (`GetDirectBufferAddress`
  does not return `NULL`).
* `invoked` is a ghost trace: the registry indices whose capability a dispatcher
  called, in call order.
-/

namespace IntelCodec

/-! ## Machine integers and memory -/

/-- One `uint8_t`. -/
abbrev Byte := Fin 256

/-- Conversion of an integer value to `uint32_t`. -/
def to_uint32 (n : Int) : Nat := (n % 4294967296).toNat

/-- Conversion of an integer value to `int` / `jint` (two's complement). -/
def to_int32 (n : Int) : Int := (n + 2147483648) % 4294967296 - 2147483648

/-- Conversion of an integer value to `size_t` (64 bits). -/
def to_size_t (n : Int) : Nat := (n % 18446744073709551616).toNat

/-- The value `sizeof(intel_codec_header_t)`: four 32-bit words. -/
def sizeof_header : Nat := 16

/-- The four bytes of a `uint32_t` in memory order. -/
def le32 (v : Nat) : List Byte :=
  [Fin.ofNat v, Fin.ofNat (v / 256), Fin.ofNat (v / 65536), Fin.ofNat (v / 16777216)]

/-- The `uint32_t` held by four bytes in memory order. -/
def of_le32 : List Byte → Nat
  | [b0, b1, b2, b3] => b0.val + 256 * b1.val + 65536 * b2.val + 16777216 * b3.val
  | _ => 0

/-- Read of `n` bytes at offset `off` of a region. -/
def load (m : List Byte) (off n : Nat) : Option (List Byte) :=
  if off + n ≤ m.length then some ((m.drop off).take n) else none

/-- Write of the bytes `bs` at offset `off` of a region. -/
def store (m : List Byte) (off : Nat) (bs : List Byte) : Option (List Byte) :=
  if off + bs.length ≤ m.length then
    some (m.take off ++ bs ++ m.drop (off + bs.length))
  else none

/-- Read of a `uint32_t` field at byte offset `off`. -/
def rd32 (m : List Byte) (off : Nat) : Option Nat := (load m off 4).map of_le32

/-- Write of a `uint32_t` field at byte offset `off`. -/
def wr32 (m : List Byte) (off : Nat) (v : Nat) : Option (List Byte) := store m off (le32 v)

/-- The call `memcpy(dst + doff, src + soff, n)`. -/
def memcpy (dst : List Byte) (doff : Nat) (src : List Byte) (soff n : Nat) :
    Option (List Byte) :=
  (load src soff n).bind (store dst doff)

/-! ## `IntelCompressionCodecJNI.h` -/

/-- The enum constant `INTEL_CODEC_RAW`. -/
def INTEL_CODEC_RAW : Nat := 0
/-- The enum constant `INTEL_CODEC_LZ4_IPP`. -/
def INTEL_CODEC_LZ4_IPP : Nat := 1
/-- The enum constant `INTEL_CODEC_LZ4_HC_IPP`. -/
def INTEL_CODEC_LZ4_HC_IPP : Nat := 2
/-- The enum constant `INTEL_CODEC_ZLIB_IPP`. -/
def INTEL_CODEC_ZLIB_IPP : Nat := 3
/-- The enum constant `INTEL_CODEC_IGZIP`. -/
def INTEL_CODEC_IGZIP : Nat := 4
/-- The enum constant `INTEL_CODEC_ZSTD`. -/
def INTEL_CODEC_ZSTD : Nat := 5

/-- The struct `intel_codec_context_t`. -/
structure intel_codec_context_t where
  codec : Int
  level : Int
  deriving DecidableEq

/-- Byte offset of `magic` in `intel_codec_header_t`. -/
def off_magic : Nat := 0
/-- Byte offset of `codec` in `intel_codec_header_t`. -/
def off_codec : Nat := 4
/-- Byte offset of `compressed_size` in `intel_codec_header_t`. -/
def off_compressed_size : Nat := 8
/-- Byte offset of `uncompressed_size` in `intel_codec_header_t`. -/
def off_uncompressed_size : Nat := 12

/-- The four-character constant `a | (b << 8) | (c << 16) | (d << 24)` of type `int`. -/
def fourcc (a b c d : Char) : Int :=
  ((a.toNat ||| (b.toNat <<< 8) ||| (c.toNat <<< 16) ||| (d.toNat <<< 24) : Nat) : Int)

/-- Magic of the raw codec. -/
def RAW_MAGIC : Int := fourcc 'I' 'R' 'A' 'W'
/-- Magic stored by `lz4_ipp_wrapper_init`. -/
def LZ4_IPP_MAGIC : Int := fourcc 'L' 'Z' '4' 'I'
/-- Magic stored by `zlib_ipp_wrapper_init`. -/
def ZLIB_IPP_MAGIC : Int := fourcc 'Z' 'L' 'B' 'I'
/-- Magic stored by `igzip_wrapper_init`. -/
def IGZIP_MAGIC : Int := fourcc 'I' 'S' 'A' 'L'
/-- Magic stored by `zstd_wrapper_init`. -/
def ZSTD_MAGIC : Int := fourcc 'Z' 'S' 'T' 'D'

/-- What a capability (`compress_func` / `decompress_func`) leaves behind: the
destination region, the value of `*dstLen` and the returned status. -/
structure CodecResult where
  dst : List Byte
  dstLen : Nat
  ret : Int
  deriving DecidableEq

/-! ## The external libraries

The compression routines live in shared libraries resolved at start-up. A routine
is modelled by the function from the arguments it reads to what it stores and
reports. The value it returns through the function pointer is an integer; the
wrapper converts it to the type of the variable that receives it. -/

/-- Outcome of a routine that fills an output buffer and returns a value. -/
structure LibWrite where
  bytes : List Byte
  ret : Int
  deriving DecidableEq

/-- The routine `LZ4_compress_fast(src, dst, srcSize, dstCapacity, acceleration)`. -/
abbrev dlsym_LZ4_IPP_compress :=
  (src : List Byte) → (srcSize : Int) → (dstCapacity : Int) → (acceleration : Int) → LibWrite

/-- The routine `LZ4_compress_HC(src, dst, srcSize, dstCapacity, compressionLevel)`. -/
abbrev dlsym_LZ4_IPP_compress_hc :=
  (src : List Byte) → (srcSize : Int) → (dstCapacity : Int) → (compressionLevel : Int) →
    LibWrite

/-- The routine `LZ4_decompress_safe(src, dst, compressedSize, dstCapacity)`. -/
abbrev dlsym_LZ4_IPP_decompress :=
  (src : List Byte) → (compressedSize : Int) → (dstCapacity : Int) → LibWrite

/-- The struct `lz4_ipp_wrapper_context_t`; a `NULL` pointer is `none`. -/
structure lz4_ipp_wrapper_context_t where
  magic : Int
  compress : Option dlsym_LZ4_IPP_compress
  compress_hc : Option dlsym_LZ4_IPP_compress_hc
  decompress : Option dlsym_LZ4_IPP_decompress

/-- Outcome of `compress2` / `uncompress`: the bytes stored, the value left in
`*destLen` and the returned status. -/
structure ZlibWrite where
  bytes : List Byte
  destLen : Nat
  ret : Int
  deriving DecidableEq

/-- The routine `compress2(dest, &destLen, source, sourceLen, level)`. -/
abbrev dlsym_compress2 :=
  (destLen : Nat) → (source : List Byte) → (sourceLen : Nat) → (level : Int) → ZlibWrite

/-- The routine `uncompress(dest, &destLen, source, sourceLen)`. -/
abbrev dlsym_uncompress :=
  (destLen : Nat) → (source : List Byte) → (sourceLen : Nat) → ZlibWrite

/-- The struct `zlib_ipp_wrapper_context_t`. -/
structure zlib_ipp_wrapper_context_t where
  magic : Int
  compress : Option dlsym_compress2
  decompress : Option dlsym_uncompress

/-- The fields of `struct isal_zstream` (declared in `igzip_lib.h`) that the
wrapper sets or reads; `level_buf` records whether the pointer is not `NULL`. -/
structure isal_zstream where
  next_in : List Byte
  avail_in : Nat
  avail_out : Nat
  total_out : Nat
  level : Nat
  level_buf : Bool
  level_buf_size : Nat
  end_of_stream : Nat
  flush : Nat

/-- Outcome of `isal_deflate_stateless`: bytes stored at `next_out`, the stream
as the routine leaves it, and the returned status. -/
structure DeflateWrite where
  bytes : List Byte
  stream : isal_zstream
  ret : Int

/-- The fields of `struct inflate_state` (declared in `igzip_lib.h`) that the
wrapper sets or reads. -/
structure inflate_state where
  next_in : List Byte
  avail_in : Nat
  avail_out : Nat
  total_out : Nat

/-- Outcome of `isal_inflate_stateless`. -/
structure InflateWrite where
  bytes : List Byte
  state : inflate_state
  ret : Int

/-- The routine `isal_deflate_stateless_init(&stream)`: the stream it sets up. -/
abbrev dlsym_isal_deflate_stateless_init := Unit → isal_zstream
/-- The routine `isal_deflate_stateless(&stream)`. -/
abbrev dlsym_isal_deflate_stateless := isal_zstream → DeflateWrite
/-- The routine `isal_inflate_init(&state)`: the state it sets up. -/
abbrev dlsym_isal_inflate_init := Unit → inflate_state
/-- The routine `isal_inflate_stateless(&state)`. -/
abbrev dlsym_isal_inflate_stateless := inflate_state → InflateWrite

/-- The struct `igzip_wrapper_context_t`. -/
structure igzip_wrapper_context_t where
  magic : Int
  isal_deflate_stateless_init_func : Option dlsym_isal_deflate_stateless_init
  isal_deflate_stateless_func : Option dlsym_isal_deflate_stateless
  isal_inflate_init_func : Option dlsym_isal_inflate_init
  isal_inflate_stateless_func : Option dlsym_isal_inflate_stateless

/-- The routine `ZSTD_compress(dst, dstCapacity, src, srcSize, compressionLevel)`. -/
abbrev dlsym_ZSTD_compress :=
  (dstCapacity : Nat) → (src : List Byte) → (srcSize : Nat) → (compressionLevel : Int) →
    LibWrite

/-- The routine `ZSTD_decompress(dst, dstCapacity, src, compressedSize)`. -/
abbrev dlsym_ZSTD_decompress :=
  (dstCapacity : Nat) → (src : List Byte) → (compressedSize : Nat) → LibWrite

/-- The routine `ZSTD_isError(code)`. -/
abbrev dlsym_ZSTD_isError := (code : Nat) → Nat

/-- The struct `zstd_wrapper_context_t`. -/
structure zstd_wrapper_context_t where
  magic : Int
  compress : Option dlsym_ZSTD_compress
  decompress : Option dlsym_ZSTD_decompress
  isError : Option dlsym_ZSTD_isError

/-- Values of the macros and enum constants that the wrappers take from `zlib.h`
and `igzip_lib.h`; these headers belong to the external libraries, so the values
are parameters of the model. -/
structure ExternalConstants where
  Z_OK : Int
  COMP_OK : Int
  STATELESS_OVERFLOW : Int
  INVALID_FLUSH : Int
  ISAL_INVALID_LEVEL : Int
  ISAL_DECOMP_OK : Int
  NO_FLUSH : Nat
  ISAL_DEF_LVL1_EXTRA_LARGE : Nat

/-- The process state the native code runs in: the four global wrapper contexts,
the external constants, and whether `malloc` in `igzip_wrapper_compress` succeeds. -/
structure World where
  consts : ExternalConstants
  malloc_succeeds : Bool
  g_lz4_ipp_wrapper_context : lz4_ipp_wrapper_context_t
  g_zlib_ipp_wrapper_context : zlib_ipp_wrapper_context_t
  g_igzip_wrapper_context : igzip_wrapper_context_t
  g_zstd_wrapper_context : zstd_wrapper_context_t

/-- The zero-initialised globals of a freshly loaded process. -/
def World.fresh (consts : ExternalConstants) (malloc_succeeds : Bool) : World :=
  { consts := consts
    malloc_succeeds := malloc_succeeds
    g_lz4_ipp_wrapper_context := ⟨0, none, none, none⟩
    g_zlib_ipp_wrapper_context := ⟨0, none, none⟩
    g_igzip_wrapper_context := ⟨0, none, none, none, none⟩
    g_zstd_wrapper_context := ⟨0, none, none, none⟩ }

/-- The symbols `dlsym` finds in `liblz4.so`. -/
structure liblz4_so where
  LZ4_compress_fast : Option dlsym_LZ4_IPP_compress
  LZ4_compress_HC : Option dlsym_LZ4_IPP_compress_hc
  LZ4_decompress_safe : Option dlsym_LZ4_IPP_decompress

/-- The symbols `dlsym` finds in `libz.so`. -/
structure libz_so where
  compress2 : Option dlsym_compress2
  uncompress : Option dlsym_uncompress

/-- The symbols `dlsym` finds in `libisal.so`. -/
structure libisal_so where
  isal_deflate_stateless_init : Option dlsym_isal_deflate_stateless_init
  isal_deflate_stateless : Option dlsym_isal_deflate_stateless
  isal_inflate_init : Option dlsym_isal_inflate_init
  isal_inflate_stateless : Option dlsym_isal_inflate_stateless

/-- The symbols `dlsym` finds in `libzstd.so`. -/
structure libzstd_so where
  ZSTD_compress : Option dlsym_ZSTD_compress
  ZSTD_decompress : Option dlsym_ZSTD_decompress
  ZSTD_isError : Option dlsym_ZSTD_isError

/-- What `dlopen` finds for each library name; `none` when the library is missing. -/
structure DynamicLinker where
  liblz4 : Option liblz4_so
  libz : Option libz_so
  libisal : Option libisal_so
  libzstd : Option libzstd_so

/-- The type `init_func`, run against the dynamic linker and the globals. -/
abbrev init_func := DynamicLinker → World → World × Int

/-- The type `compress_func`. -/
abbrev compress_func :=
  World → intel_codec_context_t → (src : List Byte) → (srcLen : Nat) →
    (dst : List Byte) → (dstLen : Nat) → Option CodecResult

/-- The type `decompress_func`. -/
abbrev decompress_func :=
  World → intel_codec_context_t → (src : List Byte) → (srcLen : Nat) →
    (dst : List Byte) → (dstLen : Nat) → Option CodecResult

/-! ## `IntelCompressionCodecJNI.c`: the raw codec -/

/-- The function `raw_wrapper_compress`. -/
def raw_wrapper_compress : compress_func := fun _W _context src srcLen dst _dstLen => do
  let d ← wr32 dst off_magic (to_uint32 RAW_MAGIC)
  let d ← wr32 d off_codec INTEL_CODEC_RAW
  let d ← memcpy d sizeof_header src 0 srcLen
  let d ← wr32 d off_uncompressed_size srcLen
  let size := to_uint32 (to_size_t ((srcLen : Int) + sizeof_header))
  let d ← wr32 d off_compressed_size size
  pure ⟨d, size, 0⟩

/-- The function `raw_wrapper_decompress`. -/
def raw_wrapper_decompress : decompress_func := fun _W _context src _srcLen dst dstLen => do
  let codec ← rd32 src off_codec
  if codec ≠ INTEL_CODEC_RAW then pure ⟨dst, dstLen, -1⟩ else
  let magic ← rd32 src off_magic
  if magic ≠ to_uint32 RAW_MAGIC then pure ⟨dst, dstLen, -1⟩ else
  let uncompressed_size ← rd32 src off_uncompressed_size
  let d ← memcpy dst 0 src sizeof_header uncompressed_size
  pure ⟨d, uncompressed_size, 0⟩

/-! ## `lz4_ipp_wrapper.c` -/

/-- The function `lz4_ipp_wrapper_init`. -/
def lz4_ipp_wrapper_init : init_func := fun L W =>
  match L.liblz4 with
  | none => (W, -1)
  | some lib =>
    let c := { W.g_lz4_ipp_wrapper_context with compress := lib.LZ4_compress_fast }
    if c.compress.isNone then ({ W with g_lz4_ipp_wrapper_context := c }, -1) else
    let c := { c with compress_hc := lib.LZ4_compress_HC }
    if c.compress_hc.isNone then ({ W with g_lz4_ipp_wrapper_context := c }, -1) else
    let c := { c with decompress := lib.LZ4_decompress_safe }
    if c.decompress.isNone then ({ W with g_lz4_ipp_wrapper_context := c }, -1) else
    let c := { c with magic := LZ4_IPP_MAGIC }
    ({ W with g_lz4_ipp_wrapper_context := c }, 0)

/-- The function `lz4_ipp_wrapper_compress`. -/
def lz4_ipp_wrapper_compress : compress_func := fun W context src srcLen dst dstLen => do
  let g := W.g_lz4_ipp_wrapper_context
  let d ← wr32 dst off_magic (to_uint32 g.magic)
  let d ← wr32 d off_codec INTEL_CODEC_LZ4_IPP
  let d ← wr32 d off_uncompressed_size srcLen
  let compress ← g.compress
  let out := compress src (to_int32 srcLen) (to_int32 dstLen) context.level
  let d ← store d sizeof_header out.bytes
  let compressed_size := to_int32 out.ret
  if compressed_size = 0 then pure ⟨d, dstLen, -1⟩ else
  let size := to_uint32 (to_size_t (compressed_size + sizeof_header))
  let d ← wr32 d off_compressed_size size
  pure ⟨d, size, 0⟩

/-- The function `lz4_ipp_wrapper_compress_hc`. -/
def lz4_ipp_wrapper_compress_hc : compress_func := fun W context src srcLen dst dstLen => do
  let g := W.g_lz4_ipp_wrapper_context
  let d ← wr32 dst off_magic (to_uint32 g.magic)
  let d ← wr32 d off_codec INTEL_CODEC_LZ4_HC_IPP
  let d ← wr32 d off_uncompressed_size srcLen
  let compress_hc ← g.compress_hc
  let out := compress_hc src (to_int32 srcLen) (to_int32 dstLen) context.level
  let d ← store d sizeof_header out.bytes
  let compressed_size := to_int32 out.ret
  if compressed_size = 0 then pure ⟨d, dstLen, -1⟩ else
  let size := to_uint32 (to_size_t (compressed_size + sizeof_header))
  let d ← wr32 d off_compressed_size size
  pure ⟨d, size, 0⟩

/-- The function `lz4_ipp_wrapper_decompress`. The comparison of the `int`
`uncompressed_size` with the `uint32_t` header field is made in `unsigned int`. -/
def lz4_ipp_wrapper_decompress : decompress_func := fun W _context src _srcLen dst dstLen => do
  let g := W.g_lz4_ipp_wrapper_context
  let magic ← rd32 src off_magic
  if magic ≠ to_uint32 g.magic then pure ⟨dst, dstLen, -1⟩ else
  let dstCapacity := to_int32 dstLen
  let decompress ← g.decompress
  let compressed_size ← rd32 src off_compressed_size
  let out := decompress (src.drop sizeof_header)
    (to_int32 (to_size_t ((compressed_size : Int) - sizeof_header))) dstCapacity
  let d ← store dst 0 out.bytes
  let uncompressed_size := to_int32 out.ret
  let header_uncompressed_size ← rd32 src off_uncompressed_size
  if to_uint32 uncompressed_size ≠ header_uncompressed_size then pure ⟨d, dstLen, -1⟩ else
  pure ⟨d, to_uint32 uncompressed_size, 0⟩

/-! ## `zlib_ipp_wrapper.c` -/

/-- The function `zlib_ipp_wrapper_init`. -/
def zlib_ipp_wrapper_init : init_func := fun L W =>
  match L.libz with
  | none => (W, -1)
  | some lib =>
    let c := { W.g_zlib_ipp_wrapper_context with compress := lib.compress2 }
    if c.compress.isNone then ({ W with g_zlib_ipp_wrapper_context := c }, -1) else
    let c := { c with decompress := lib.uncompress }
    if c.decompress.isNone then ({ W with g_zlib_ipp_wrapper_context := c }, -1) else
    let c := { c with magic := ZLIB_IPP_MAGIC }
    ({ W with g_zlib_ipp_wrapper_context := c }, 0)

/-- The function `zlib_ipp_wrapper_compress`. -/
def zlib_ipp_wrapper_compress : compress_func := fun W context src srcLen dst dstLen => do
  let g := W.g_zlib_ipp_wrapper_context
  let d ← wr32 dst off_magic (to_uint32 g.magic)
  let d ← wr32 d off_codec INTEL_CODEC_ZLIB_IPP
  let d ← wr32 d off_uncompressed_size srcLen
  let compressed_size := to_size_t ((dstLen : Int) - sizeof_header)
  let compress ← g.compress
  let out := compress compressed_size src srcLen context.level
  let d ← store d sizeof_header out.bytes
  let ret := to_int32 out.ret
  if ret ≠ W.consts.Z_OK then pure ⟨d, dstLen, -1⟩ else
  let size := to_uint32 (to_size_t ((out.destLen : Int) + sizeof_header))
  let d ← wr32 d off_compressed_size size
  pure ⟨d, size, 0⟩

/-- The function `zlib_ipp_wrapper_decompress`. -/
def zlib_ipp_wrapper_decompress : decompress_func := fun W _context src _srcLen dst dstLen => do
  let g := W.g_zlib_ipp_wrapper_context
  let magic ← rd32 src off_magic
  if magic ≠ to_uint32 g.magic then pure ⟨dst, dstLen, -1⟩ else
  let uncompressed_size := dstLen
  let decompress ← g.decompress
  let compressed_size ← rd32 src off_compressed_size
  let out := decompress uncompressed_size (src.drop sizeof_header)
    (to_size_t ((compressed_size : Int) - sizeof_header))
  let d ← store dst 0 out.bytes
  let ret := to_int32 out.ret
  if ret ≠ W.consts.Z_OK then pure ⟨d, dstLen, -1⟩ else
  let header_uncompressed_size ← rd32 src off_uncompressed_size
  if out.destLen ≠ header_uncompressed_size then pure ⟨d, dstLen, -1⟩ else
  pure ⟨d, to_uint32 out.destLen, 0⟩

/-! ## `igzip_wrapper.c` -/

/-- The function `igzip_wrapper_init`. -/
def igzip_wrapper_init : init_func := fun L W =>
  match L.libisal with
  | none => (W, -1)
  | some lib =>
    let c := { W.g_igzip_wrapper_context with
      isal_deflate_stateless_init_func := lib.isal_deflate_stateless_init }
    if c.isal_deflate_stateless_init_func.isNone then
      ({ W with g_igzip_wrapper_context := c }, -1) else
    let c := { c with isal_deflate_stateless_func := lib.isal_deflate_stateless }
    if c.isal_deflate_stateless_func.isNone then
      ({ W with g_igzip_wrapper_context := c }, -1) else
    let c := { c with isal_inflate_init_func := lib.isal_inflate_init }
    if c.isal_inflate_init_func.isNone then
      ({ W with g_igzip_wrapper_context := c }, -1) else
    let c := { c with isal_inflate_stateless_func := lib.isal_inflate_stateless }
    if c.isal_inflate_stateless_func.isNone then
      ({ W with g_igzip_wrapper_context := c }, -1) else
    let c := { c with magic := IGZIP_MAGIC }
    ({ W with g_igzip_wrapper_context := c }, 0)

/-- The function `igzip_wrapper_compress`. Only three of the statuses other than
`COMP_OK` return early; any other status falls through to the `avail_in` test. -/
def igzip_wrapper_compress : compress_func := fun W context src srcLen dst dstLen => do
  let g := W.g_igzip_wrapper_context
  let d ← wr32 dst off_magic (to_uint32 g.magic)
  let d ← wr32 d off_codec INTEL_CODEC_IGZIP
  let d ← wr32 d off_uncompressed_size srcLen
  let level_buf_size := W.consts.ISAL_DEF_LVL1_EXTRA_LARGE
  let isal_deflate_stateless_init ← g.isal_deflate_stateless_init_func
  let stream := isal_deflate_stateless_init ()
  let level_buf := decide (context.level ≥ 1) && W.malloc_succeeds
  let stream := { stream with
    end_of_stream := 1
    flush := W.consts.NO_FLUSH
    next_in := src
    avail_in := srcLen
    avail_out := to_uint32 (to_size_t ((dstLen : Int) - sizeof_header))
    level := to_uint32 context.level
    level_buf := level_buf
    level_buf_size := level_buf_size }
  let isal_deflate_stateless ← g.isal_deflate_stateless_func
  let out := isal_deflate_stateless stream
  let d ← store d sizeof_header out.bytes
  let ret := to_int32 out.ret
  if ret ≠ W.consts.COMP_OK ∧
      (ret = W.consts.STATELESS_OVERFLOW ∨ ret = W.consts.INVALID_FLUSH ∨
        ret = W.consts.ISAL_INVALID_LEVEL) then pure ⟨d, dstLen, -1⟩ else
  if out.stream.avail_in ≠ 0 then pure ⟨d, dstLen, -1⟩ else
  let size := to_uint32 (to_size_t ((out.stream.total_out : Int) + sizeof_header))
  let d ← wr32 d off_compressed_size size
  pure ⟨d, size, 0⟩

/-- The function `igzip_wrapper_decompress`. -/
def igzip_wrapper_decompress : decompress_func := fun W _context src _srcLen dst dstLen => do
  let g := W.g_igzip_wrapper_context
  let magic ← rd32 src off_magic
  if magic ≠ to_uint32 g.magic then pure ⟨dst, dstLen, -1⟩ else
  let isal_inflate_init ← g.isal_inflate_init_func
  let state := isal_inflate_init ()
  let compressed_size ← rd32 src off_compressed_size
  let state := { state with
    next_in := src.drop sizeof_header
    avail_in := to_uint32 (to_size_t ((compressed_size : Int) - sizeof_header))
    avail_out := dstLen }
  let isal_inflate_stateless ← g.isal_inflate_stateless_func
  let out := isal_inflate_stateless state
  let d ← store dst 0 out.bytes
  let ret := to_int32 out.ret
  if ret ≠ W.consts.ISAL_DECOMP_OK then pure ⟨d, dstLen, -1⟩ else
  let header_uncompressed_size ← rd32 src off_uncompressed_size
  if out.state.total_out ≠ header_uncompressed_size then pure ⟨d, dstLen, -1⟩ else
  pure ⟨d, out.state.total_out, 0⟩

/-! ## `zstd_wrapper.c` -/

/-- The function `zstd_wrapper_init`. -/
def zstd_wrapper_init : init_func := fun L W =>
  match L.libzstd with
  | none => (W, -1)
  | some lib =>
    let c := { W.g_zstd_wrapper_context with compress := lib.ZSTD_compress }
    if c.compress.isNone then ({ W with g_zstd_wrapper_context := c }, -1) else
    let c := { c with decompress := lib.ZSTD_decompress }
    if c.decompress.isNone then ({ W with g_zstd_wrapper_context := c }, -1) else
    let c := { c with isError := lib.ZSTD_isError }
    if c.isError.isNone then ({ W with g_zstd_wrapper_context := c }, -1) else
    let c := { c with magic := ZSTD_MAGIC }
    ({ W with g_zstd_wrapper_context := c }, 0)

/-- The function `zstd_wrapper_compress`. The `size_t` result of `ZSTD_compress`
is kept in an `int`; `*dstLen` and the header are written before the status is
decided. -/
def zstd_wrapper_compress : compress_func := fun W context src srcLen dst dstLen => do
  let g := W.g_zstd_wrapper_context
  let d ← wr32 dst off_magic (to_uint32 g.magic)
  let d ← wr32 d off_codec INTEL_CODEC_ZSTD
  let d ← wr32 d off_uncompressed_size srcLen
  let dstCapacity := to_int32 dstLen
  let compress ← g.compress
  let out := compress (to_size_t dstCapacity) src srcLen context.level
  let d ← store d sizeof_header out.bytes
  let compressed_size := to_int32 out.ret
  let size := to_uint32 (to_size_t (compressed_size + sizeof_header))
  let d ← wr32 d off_compressed_size size
  let isError ← g.isError
  pure ⟨d, size, if isError (to_size_t compressed_size) ≠ 0 then -1 else 0⟩

/-- The function `zstd_wrapper_decompress`. -/
def zstd_wrapper_decompress : decompress_func := fun W _context src _srcLen dst dstLen => do
  let g := W.g_zstd_wrapper_context
  let magic ← rd32 src off_magic
  if magic ≠ to_uint32 g.magic then pure ⟨dst, dstLen, -1⟩ else
  let dstCapacity := to_int32 dstLen
  let decompress ← g.decompress
  let compressed_size ← rd32 src off_compressed_size
  let out := decompress (to_size_t dstCapacity) (src.drop sizeof_header)
    (to_size_t ((compressed_size : Int) - sizeof_header))
  let d ← store dst 0 out.bytes
  let uncompressed_size := to_int32 out.ret
  let header_uncompressed_size ← rd32 src off_uncompressed_size
  if to_uint32 uncompressed_size ≠ header_uncompressed_size then pure ⟨d, dstLen, -1⟩ else
  let isError ← g.isError
  pure ⟨d, to_uint32 uncompressed_size,
    if isError (to_size_t uncompressed_size) ≠ 0 then -1 else 0⟩

/-! ## `IntelCompressionCodecJNI.c`: registry and dispatchers -/

/-- The struct `intel_codec_desc_t`; `get_library_name` holds the returned string. -/
structure intel_codec_desc_t where
  name : String
  compress : Option compress_func
  decompress : Option decompress_func
  init : Option init_func
  get_library_name : Option String

/-- The table `intel_codec_table`. -/
def intel_codec_table : List intel_codec_desc_t :=
  [ ⟨"raw", some raw_wrapper_compress, some raw_wrapper_decompress, none, some "memcpy"⟩,
    ⟨"lz4-ipp", some lz4_ipp_wrapper_compress, some lz4_ipp_wrapper_decompress,
      some lz4_ipp_wrapper_init, none⟩,
    ⟨"lz4-hc-ipp", some lz4_ipp_wrapper_compress_hc, some lz4_ipp_wrapper_decompress,
      none, none⟩,
    ⟨"zlib-ipp", some zlib_ipp_wrapper_compress, some zlib_ipp_wrapper_decompress,
      some zlib_ipp_wrapper_init, none⟩,
    ⟨"igzip", some igzip_wrapper_compress, some igzip_wrapper_decompress,
      some igzip_wrapper_init, none⟩,
    ⟨"zstd", some zstd_wrapper_compress, some zstd_wrapper_decompress,
      some zstd_wrapper_init, some "libzstd.so"⟩ ]

/-- A Java exception raised through the `THROW` helper. The message of the
`UnsatisfiedLinkError` raised by `init` is built from the codec name, which is
what the constructor keeps. -/
inductive JavaException
  | OutOfMemoryError (message : String)
  | InternalError (message : String)
  | UnsatisfiedLinkError (codec_name : String)
  deriving DecidableEq

/-- Outcome of a dispatcher call: the destination region, the returned `jint`,
the exceptions raised, and the ghost trace of the registry entries called. -/
structure JniResult where
  dst : List Byte
  ret : Int
  thrown : List JavaException
  invoked : List Nat
  deriving DecidableEq

/-- The exception state of the JNI environment during one native call. A thread has
at most one pending exception. `THROW` is `FindClass` followed by `ThrowNew`, two JNI
functions that the JNI specification allows only while no exception is pending:
`clear` is the state on entry, `raised e` the state after a `THROW` of `e` issued
while nothing was pending, and `undefined first later` the state after the `THROW`s
of `later` were issued, in this order, while `first` (or whatever the virtual
machine made of it) was pending, which the JNI specification leaves undefined. -/
inductive JniExceptionState
  | clear
  | raised (e : JavaException)
  | undefined (first : JavaException) (later : List JavaException)
  deriving DecidableEq

/-- The macro `THROW(env, exception_name, message)`: `FindClass`, then `ThrowNew` when
the class was found; the classes that the callers name are classes of `java.lang`,
which are found. Neither the macro nor its callers test or clear a pending
exception. -/
def THROW (env : JniExceptionState) (e : JavaException) : JniExceptionState :=
  match env with
  | .clear => .raised e
  | .raised first => .undefined first [e]
  | .undefined first later => .undefined first (later ++ [e])

/-- Outcome of `init`: the globals, the exception state of the JNI environment on
return, and the ghost trace of the registry entries whose `init` was called. -/
structure InitResult where
  world : World
  thrown : JniExceptionState
  invoked : List Nat

/-- The loop of `Java_com_intel_compression_jni_IntelCompressionCodecJNI_init`
from index `i` over the remaining table entries, in the JNI exception state `env`.
After a `THROW` the loop goes on: there is no `return` and no `ExceptionClear`. -/
def init_loop (L : DynamicLinker) :
    Nat → List intel_codec_desc_t → World → JniExceptionState → InitResult
  | _, [], W, env => ⟨W, env, []⟩
  | i, d :: ds, W, env =>
    match d.init with
    | some init =>
      let (W1, ret) := init L W
      let env1 := if ret ≠ 0 then THROW env (JavaException.UnsatisfiedLinkError d.name) else env
      let rest := init_loop L (i + 1) ds W1 env1
      ⟨rest.world, rest.thrown, i :: rest.invoked⟩
    | none => init_loop L (i + 1) ds W env

/-- The entry point `Java_com_intel_compression_jni_IntelCompressionCodecJNI_init`.
A native method is entered with no exception pending. -/
def Java_com_intel_compression_jni_IntelCompressionCodecJNI_init
    (L : DynamicLinker) (W : World) : InitResult :=
  init_loop L 0 intel_codec_table W JniExceptionState.clear

/-- The bytes of a C string literal, without the terminating NUL. The names of the
table are ASCII. -/
def c_str (s : String) : List Byte := s.toList.map fun c => Fin.ofNat c.toNat

/-- The call `strlen(s)` on the bytes before the terminating NUL. -/
def strlen (s : List Byte) : Nat := s.length

/-- The call `strncmp(s1, s2, n)`; a string is the list of its bytes before the
terminating NUL, which is the byte read at and after the end of the list. At most
`n` bytes are compared and the comparison stops after a NUL. -/
def strncmp : List Byte → List Byte → Nat → Int
  | _, _, 0 => 0
  | s1, s2, n + 1 =>
    let c1 := s1.headD 0
    let c2 := s2.headD 0
    if c1 ≠ c2 then (c1.val : Int) - (c2.val : Int)
    else if c1 = 0 then 0
    else strncmp s1.tail s2.tail n

/-- Outcome of a context constructor: the returned handle (`none` is the returned
0), the exceptions raised, and the name of the fallback codec when the diagnostic
line of `createCompressContext` is printed to `stderr`. -/
structure ContextResult where
  context : Option intel_codec_context_t
  thrown : List JavaException
  diagnostic : Option String
  deriving DecidableEq

/-- The search loop of `createCompressContext` from index `i` over the remaining
table entries: the value of `i` when the loop ends, by `break` or by exhaustion. -/
def find_codec (codec_name : List Byte) : Nat → List intel_codec_desc_t → Nat
  | i, [] => i
  | i, d :: ds =>
    if strncmp codec_name (c_str d.name) (strlen (c_str d.name)) = 0 then i
    else find_codec codec_name (i + 1) ds

/-- The entry point
`Java_com_intel_compression_jni_IntelCompressionCodecJNI_createCompressContext`.
`codec_name` holds the bytes returned by `GetStringUTFChars`; `malloc_succeeds`
tells whether the allocation of the context succeeds. -/
def Java_com_intel_compression_jni_IntelCompressionCodecJNI_createCompressContext
    (malloc_succeeds : Bool) (codec_name : List Byte) (level : Int) : ContextResult :=
  if ¬ malloc_succeeds then
    ⟨none, [JavaException.OutOfMemoryError "Error alloc the compress context"], none⟩
  else
    let i := find_codec codec_name 1 (intel_codec_table.drop 1)
    let found : intel_codec_context_t :=
      if i < intel_codec_table.length then ⟨i, level⟩ else ⟨0, level⟩
    if i = intel_codec_table.length then
      if i > 1 then
        ⟨some { found with codec := 1 }, [], (intel_codec_table[1]?).map (·.name)⟩
      else ⟨some found, [], none⟩
    else ⟨some found, [], none⟩

/-- The entry point
`Java_com_intel_compression_jni_IntelCompressionCodecJNI_createDecompressContext`.
The context is returned as `malloc` left it: `uninitialised` stands for the
indeterminate contents of the fresh allocation. -/
def Java_com_intel_compression_jni_IntelCompressionCodecJNI_createDecompressContext
    (malloc_succeeds : Bool) (uninitialised : intel_codec_context_t) : ContextResult :=
  if ¬ malloc_succeeds then
    ⟨none, [JavaException.OutOfMemoryError "Error alloc the decompress context"], none⟩
  else ⟨some uninitialised, [], none⟩

/-- The entry point `Java_com_intel_compression_jni_IntelCompressionCodecJNI_compress`.
The second test compares a non-negative `int` with the table size, so its
conversion to `size_t` keeps the value. -/
def Java_com_intel_compression_jni_IntelCompressionCodecJNI_compress
    (W : World) (context : intel_codec_context_t)
    (src : List Byte) (srcLen : Int) (dst : List Byte) (destLen : Int) : Option JniResult :=
  let compressed_size : Nat := 0
  let unsupported : JniResult :=
    ⟨dst, to_int32 compressed_size,
      [JavaException.InternalError "Unsupport compress codec type."], []⟩
  if context.codec ≥ 0 ∧ context.codec < (intel_codec_table.length : Int) then
    match intel_codec_table[context.codec.toNat]? with
    | some desc =>
      match desc.compress with
      | some compress => do
        let compressed_size := to_uint32 destLen
        let r ← compress W context src (to_uint32 srcLen) dst compressed_size
        if r.ret ≠ 0 then
          let r2 ← raw_wrapper_compress W context src (to_uint32 srcLen) r.dst r.dstLen
          pure ⟨r2.dst, to_int32 r2.dstLen, [], [context.codec.toNat, INTEL_CODEC_RAW]⟩
        else
          pure ⟨r.dst, to_int32 r.dstLen, [], [context.codec.toNat]⟩
      | none => some unsupported
    | none => some unsupported
  else some unsupported

/-- The entry point `Java_com_intel_compression_jni_IntelCompressionCodecJNI_decompress`. -/
def Java_com_intel_compression_jni_IntelCompressionCodecJNI_decompress
    (W : World) (context : intel_codec_context_t)
    (src : List Byte) (srcLen : Int) (dst : List Byte) (destLen : Int) : Option JniResult := do
  let uncompressed_size : Nat := 0
  let unsupported : JniResult :=
    ⟨dst, to_int32 uncompressed_size,
      [JavaException.InternalError "Unsupport decompress codec type."], []⟩
  let codec ← rd32 src off_codec
  if codec < intel_codec_table.length then
    match intel_codec_table[codec]? with
    | some desc =>
      match desc.decompress with
      | some decompress =>
        let uncompressed_size := to_uint32 destLen
        let r ← decompress W context src (to_uint32 srcLen) dst uncompressed_size
        if r.ret ≠ 0 then
          pure ⟨r.dst, to_int32 r.dstLen,
            [JavaException.InternalError "Could not decompress data."], [codec]⟩
        else
          pure ⟨r.dst, to_int32 r.dstLen, [], [codec]⟩
      | none => pure unsupported
    | none => pure unsupported
  else pure unsupported

/-! ## Vocabulary of the statements -/

/-- Layout of a frame: the four header words in memory order, then the payload. -/
def frame_bytes (magic codec compressed_size uncompressed_size : Nat) (payload : List Byte) :
    List Byte :=
  le32 magic ++ (le32 codec ++ (le32 compressed_size ++ (le32 uncompressed_size ++ payload)))

/-- The raw-codec frame of `x`: magic `IRAW`, codec 0, both sizes, then `x` verbatim. -/
def raw_frame (x : List Byte) : List Byte :=
  frame_bytes (to_uint32 RAW_MAGIC) INTEL_CODEC_RAW (x.length + 16) x.length x

/-- The magic that registry entry `i` stamps into the frames it writes. -/
def codec_magic (W : World) : Nat → Int
  | 0 => RAW_MAGIC
  | 1 => W.g_lz4_ipp_wrapper_context.magic
  | 2 => W.g_lz4_ipp_wrapper_context.magic
  | 3 => W.g_zlib_ipp_wrapper_context.magic
  | 4 => W.g_igzip_wrapper_context.magic
  | _ => W.g_zstd_wrapper_context.magic

/-- The stream `igzip_wrapper_compress` hands to `isal_deflate_stateless`. -/
def igzip_deflate_stream (W : World) (context : intel_codec_context_t) (src : List Byte)
    (srcLen dstLen : Nat) (init : dlsym_isal_deflate_stateless_init) : isal_zstream :=
  { init () with
    end_of_stream := 1
    flush := W.consts.NO_FLUSH
    next_in := src
    avail_in := srcLen
    avail_out := to_uint32 (to_size_t ((dstLen : Int) - sizeof_header))
    level := to_uint32 context.level
    level_buf := decide (context.level ≥ 1) && W.malloc_succeeds
    level_buf_size := W.consts.ISAL_DEF_LVL1_EXTRA_LARGE }

/-- The number of payload bytes that the codec behind registry entry `i` reports
for a compress call with these arguments: the source length for the raw codec, the
value returned by `LZ4_compress_fast`, `LZ4_compress_HC` and `ZSTD_compress`, the
`*destLen` left by `compress2`, the `total_out` left by `isal_deflate_stateless`. -/
def reported_payload_size (W : World) (context : intel_codec_context_t) (src : List Byte)
    (srcLen dstLen : Nat) : Nat → Option Int
  | 0 => some srcLen
  | 1 => W.g_lz4_ipp_wrapper_context.compress.map fun f =>
      (f src (to_int32 srcLen) (to_int32 dstLen) context.level).ret
  | 2 => W.g_lz4_ipp_wrapper_context.compress_hc.map fun f =>
      (f src (to_int32 srcLen) (to_int32 dstLen) context.level).ret
  | 3 => W.g_zlib_ipp_wrapper_context.compress.map fun f =>
      ((f (to_size_t ((dstLen : Int) - sizeof_header)) src srcLen context.level).destLen : Int)
  | 4 => W.g_igzip_wrapper_context.isal_deflate_stateless_init_func.bind fun init =>
      W.g_igzip_wrapper_context.isal_deflate_stateless_func.map fun f =>
        ((f (igzip_deflate_stream W context src srcLen dstLen init)).stream.total_out : Int)
  | _ => W.g_zstd_wrapper_context.compress.map fun f =>
      (f (to_size_t (to_int32 dstLen)) src srcLen context.level).ret

/-- What the compress capability of registry entry `i` leaves in the destination:
the region keeps its length and starts with the magic of the entry, the index `i`,
a third word and the source length; on status 0 the third word and `*dstLen` are
16 plus the reported payload size. -/
def CompressPost (W : World) (ctx : intel_codec_context_t) (src : List Byte) (n : Nat)
    (dst : List Byte) (dl : Nat) (i : Nat) (cr : CodecResult) : Prop :=
  16 ≤ dst.length ∧ cr.dst.length = dst.length ∧
  ∃ w payload,
    cr.dst = le32 (to_uint32 (codec_magic W i)) ++ (le32 i ++ (w ++ (le32 n ++ payload))) ∧
    w.length = 4 ∧
    (cr.ret = 0 → ∃ p, reported_payload_size W ctx src n dl i = some p ∧
      cr.dstLen = to_uint32 (p + 16) ∧ w = le32 cr.dstLen)

/-- The constant magic of the codec family of registry entry `i`. -/
def family_magic : Nat → Int
  | 0 => RAW_MAGIC
  | 1 => LZ4_IPP_MAGIC
  | 2 => LZ4_IPP_MAGIC
  | 3 => ZLIB_IPP_MAGIC
  | 4 => IGZIP_MAGIC
  | _ => ZSTD_MAGIC

/-- The status returned by the `init` capability that resolves the library behind
registry entry `i`: entry 2 uses the library resolved by the `init` of entry 1, and
entry 0 (raw) needs no library. -/
def library_init_status (L : DynamicLinker) (W : World) : Nat → Int
  | 0 => 0
  | 1 => (lz4_ipp_wrapper_init L W).2
  | 2 => (lz4_ipp_wrapper_init L W).2
  | 3 => (zlib_ipp_wrapper_init L W).2
  | 4 => (igzip_wrapper_init L W).2
  | _ => (zstd_wrapper_init L W).2

/-- The region `m` with bit `k` flipped: bit `k % 8` of the byte at offset `k / 8`. -/
def flip_bit : List Byte → Nat → List Byte
  | [], _ => []
  | b :: bs, k => if k < 8 then (b ^^^ Fin.ofNat (2 ^ k)) :: bs else b :: flip_bit bs (k - 8)

/-! ## Sample environment for the worked instances -/

/-- A sample assignment of the external constants (`Z_OK`, `COMP_OK`,
`STATELESS_OVERFLOW`, `INVALID_FLUSH`, `ISAL_INVALID_LEVEL`, `ISAL_DECOMP_OK`,
`NO_FLUSH`, `ISAL_DEF_LVL1_EXTRA_LARGE`). -/
def sample_consts : ExternalConstants := ⟨0, 0, -1, -7, -4, 0, 0, 0⟩

/-- A stand-in for `LZ4_compress_fast`: it stores the input unchanged and reports
its size, or reports 0 when the input does not fit the capacity. -/
def sample_lz4_compress : dlsym_LZ4_IPP_compress := fun src srcSize dstCapacity _ =>
  if srcSize ≤ dstCapacity then ⟨src.take srcSize.toNat, srcSize⟩ else ⟨[], 0⟩

/-- A stand-in for `LZ4_compress_HC` that always reports failure (returns 0). -/
def sample_lz4_compress_hc : dlsym_LZ4_IPP_compress_hc := fun _ _ _ _ => ⟨[], 0⟩

/-- A stand-in for `LZ4_decompress_safe`: it copies the payload, or reports the
error -1 when the payload does not fit the capacity. -/
def sample_lz4_decompress : dlsym_LZ4_IPP_decompress := fun src compressedSize dstCapacity =>
  if compressedSize ≤ dstCapacity then ⟨src.take compressedSize.toNat, compressedSize⟩
  else ⟨[], -1⟩

/-- A dynamic linker that finds `liblz4.so` with the stand-ins above and no other
library. -/
def sample_linker : DynamicLinker :=
  ⟨some ⟨some sample_lz4_compress, some sample_lz4_compress_hc, some sample_lz4_decompress⟩,
    none, none, none⟩

/-- The process state after `init` under `sample_linker`. -/
def sample_world : World :=
  (Java_com_intel_compression_jni_IntelCompressionCodecJNI_init sample_linker
    (World.fresh sample_consts true)).world

/-- The five bytes of "hello". -/
def hello : List Byte := [104, 101, 108, 108, 111]

/-- A frame headed for `lz4_ipp_wrapper_decompress` whose header announces
`uncompressed_size = 0xFFFFFFFF`: magic `LZ4I`, codec 1, compressed_size 21, and the
payload "hello". -/
def lz4_error_frame : List Byte :=
  frame_bytes (to_uint32 LZ4_IPP_MAGIC) INTEL_CODEC_LZ4_IPP 21 4294967295 hello

/-- A stand-in for `LZ4_compress_fast` on input it cannot shorten: it stores one
token byte followed by the input and reports that size, or reports 0 when this does
not fit the capacity it is given. -/
def sample_lz4_literal : dlsym_LZ4_IPP_compress := fun src srcSize dstCapacity _ =>
  if srcSize + 1 ≤ dstCapacity then
    ⟨Fin.ofNat (16 * srcSize.toNat) :: src.take srcSize.toNat, srcSize + 1⟩
  else ⟨[], 0⟩

/-- The process state after `init` when `liblz4.so` exports `sample_lz4_literal`. -/
def sample_world_literal : World :=
  (Java_com_intel_compression_jni_IntelCompressionCodecJNI_init
    ⟨some ⟨some sample_lz4_literal, some sample_lz4_compress_hc, some sample_lz4_decompress⟩,
      none, none, none⟩
    (World.fresh sample_consts true)).world

/-- A stand-in for `LZ4_decompress_safe` that undoes `sample_lz4_literal`: it drops
the token byte and stores the literals, or reports the error -1 when they do not fit
the capacity. -/
def sample_lz4_literal_decompress : dlsym_LZ4_IPP_decompress :=
  fun src compressedSize dstCapacity =>
    if compressedSize - 1 ≤ dstCapacity then
      ⟨(src.take compressedSize.toNat).drop 1, compressedSize - 1⟩
    else ⟨[], -1⟩

/-- A dynamic linker that finds `liblz4.so` with `sample_lz4_literal` and
`sample_lz4_literal_decompress`, and no other library. -/
def sample_linker_literal : DynamicLinker :=
  ⟨some ⟨some sample_lz4_literal, some sample_lz4_compress_hc,
      some sample_lz4_literal_decompress⟩, none, none, none⟩

/-- The process state after `init` under `sample_linker_literal`. -/
def sample_world_literal_pair : World :=
  (Java_com_intel_compression_jni_IntelCompressionCodecJNI_init sample_linker_literal
    (World.fresh sample_consts true)).world

/-- A dynamic linker that finds none of the four libraries. -/
def sample_linker_missing : DynamicLinker := ⟨none, none, none, none⟩

/-- The process state after `init` when no library is found. -/
def sample_world_missing : World :=
  (Java_com_intel_compression_jni_IntelCompressionCodecJNI_init sample_linker_missing
    (World.fresh sample_consts true)).world

/-! ## Assumptions on a library that works -/

/-- What the round-trip claim assumes of the compress routine behind registry entry
`i` (1..5), for the call its wrapper makes with the context `ctx`, the source region
`src`, `srcLen = n` and `*dstLen = dl`: the routine stores exactly `payload`, reports
success and the size of `payload`, and that size is within the capacity it was
passed. For lz4 success is a non-zero size, for zlib the status `Z_OK`, for igzip the
status `COMP_OK` with all input consumed, for zstd a size that `ZSTD_isError`
rejects as an error code. -/
def library_compresses (W : World) (i : Nat) (ctx : intel_codec_context_t) (src : List Byte)
    (n dl : Nat) (payload : List Byte) : Prop :=
  match i with
  | 1 => ∃ f, W.g_lz4_ipp_wrapper_context.compress = some f ∧
      f src (to_int32 n) (to_int32 dl) ctx.level = ⟨payload, payload.length⟩ ∧
      0 < payload.length ∧ (payload.length : Int) ≤ to_int32 dl
  | 2 => ∃ f, W.g_lz4_ipp_wrapper_context.compress_hc = some f ∧
      f src (to_int32 n) (to_int32 dl) ctx.level = ⟨payload, payload.length⟩ ∧
      0 < payload.length ∧ (payload.length : Int) ≤ to_int32 dl
  | 3 => ∃ f, W.g_zlib_ipp_wrapper_context.compress = some f ∧
      (f (to_size_t ((dl : Int) - 16)) src n ctx.level).bytes = payload ∧
      (f (to_size_t ((dl : Int) - 16)) src n ctx.level).destLen = payload.length ∧
      to_int32 (f (to_size_t ((dl : Int) - 16)) src n ctx.level).ret = W.consts.Z_OK ∧
      payload.length ≤ to_size_t ((dl : Int) - 16)
  | 4 => ∃ init f, W.g_igzip_wrapper_context.isal_deflate_stateless_init_func = some init ∧
      W.g_igzip_wrapper_context.isal_deflate_stateless_func = some f ∧
      (f (igzip_deflate_stream W ctx src n dl init)).bytes = payload ∧
      to_int32 (f (igzip_deflate_stream W ctx src n dl init)).ret = W.consts.COMP_OK ∧
      (f (igzip_deflate_stream W ctx src n dl init)).stream.avail_in = 0 ∧
      (f (igzip_deflate_stream W ctx src n dl init)).stream.total_out = payload.length ∧
      payload.length ≤ (igzip_deflate_stream W ctx src n dl init).avail_out
  | 5 => ∃ f e, W.g_zstd_wrapper_context.compress = some f ∧
      W.g_zstd_wrapper_context.isError = some e ∧
      f (to_size_t (to_int32 dl)) src n ctx.level = ⟨payload, payload.length⟩ ∧
      e payload.length = 0 ∧ payload.length ≤ to_size_t (to_int32 dl)
  | _ => False

/-- What the round-trip claim assumes of the decompress routine behind registry
entry `i` (1..5), for the call its wrapper makes on exactly the bytes of `payload`,
their number and `*dstLen = dl`: the routine stores exactly `x`, reports success and
the size of `x`. -/
def library_decompresses (W : World) (i : Nat) (payload : List Byte) (dl : Nat)
    (x : List Byte) : Prop :=
  match i with
  | 1 => ∃ g, W.g_lz4_ipp_wrapper_context.decompress = some g ∧
      g payload payload.length (to_int32 dl) = ⟨x, x.length⟩
  | 2 => ∃ g, W.g_lz4_ipp_wrapper_context.decompress = some g ∧
      g payload payload.length (to_int32 dl) = ⟨x, x.length⟩
  | 3 => ∃ g, W.g_zlib_ipp_wrapper_context.decompress = some g ∧
      (g dl payload payload.length).bytes = x ∧
      (g dl payload payload.length).destLen = x.length ∧
      to_int32 (g dl payload payload.length).ret = W.consts.Z_OK
  | 4 => ∃ init g, W.g_igzip_wrapper_context.isal_inflate_init_func = some init ∧
      W.g_igzip_wrapper_context.isal_inflate_stateless_func = some g ∧
      (g { init () with next_in := payload, avail_in := payload.length, avail_out := dl }).bytes
        = x ∧
      to_int32 (g { init () with
        next_in := payload, avail_in := payload.length, avail_out := dl }).ret =
        W.consts.ISAL_DECOMP_OK ∧
      (g { init () with
        next_in := payload, avail_in := payload.length, avail_out := dl }).state.total_out =
        x.length
  | 5 => ∃ g e, W.g_zstd_wrapper_context.decompress = some g ∧
      W.g_zstd_wrapper_context.isError = some e ∧
      g (to_size_t (to_int32 dl)) payload payload.length = ⟨x, x.length⟩ ∧
      e x.length = 0
  | _ => False

/-- The statement `if (ret) { ... THROW(env, "java/lang/UnsatisfiedLinkError", msg); }`
of the loop of `init`, for the entry called `name` whose `init` returned `ret`. -/
def report_failure (env : JniExceptionState) (ret : Int) (name : String) : JniExceptionState :=
  if ret ≠ 0 then THROW env (JavaException.UnsatisfiedLinkError name) else env

/-! ## Memory lemmas -/

theorem to_uint32_of_lt {n : Nat} (h : n < 4294967296) : to_uint32 (n : Int) = n := by
  unfold to_uint32; omega

theorem of_le32_le32 {v : Nat} (h : v < 4294967296) : of_le32 (le32 v) = v := by
  simp only [le32, of_le32, Fin.ofNat, Fin.val_mk]
  omega

@[simp] theorem length_le32 (v : Nat) : (le32 v).length = 4 := rfl

theorem exists_segments {m : List Byte} (h : 16 ≤ m.length) :
    ∃ s0 s1 s2 s3 rest, m = s0 ++ (s1 ++ (s2 ++ (s3 ++ rest))) ∧ s0.length = 4 ∧
      s1.length = 4 ∧ s2.length = 4 ∧ s3.length = 4 := by
  refine ⟨m.take 4, (m.drop 4).take 4, (m.drop 8).take 4, (m.drop 12).take 4, m.drop 16,
    ?_, ?_, ?_, ?_, ?_⟩
  · have h1 : m = m.take 4 ++ m.drop 4 := (List.take_append_drop 4 m).symm
    have h2 : m.drop 4 = (m.drop 4).take 4 ++ (m.drop 4).drop 4 :=
      (List.take_append_drop 4 _).symm
    have h3 : m.drop 8 = (m.drop 8).take 4 ++ (m.drop 8).drop 4 :=
      (List.take_append_drop 4 _).symm
    have h4 : m.drop 12 = (m.drop 12).take 4 ++ (m.drop 12).drop 4 :=
      (List.take_append_drop 4 _).symm
    simp only [List.drop_drop] at h2 h3 h4
    norm_num at h2 h3 h4
    rw [← h4, ← h3, ← h2, ← h1]
  all_goals simp; omega

theorem store_shift {a : List Byte} {k : Nat} (ha : a.length = k) (m : List Byte) (off : Nat)
    (bs : List Byte) : store (a ++ m) (k + off) bs = (store m off bs).map (a ++ ·) := by
  subst ha
  unfold store
  by_cases h : off + bs.length ≤ m.length
  · rw [if_pos (by simp; omega), if_pos h]
    simp only [Option.map_some', Option.some.injEq]
    rw [List.take_append, Nat.add_assoc, List.drop_append]
    simp
  · rw [if_neg (by simp; omega), if_neg h]
    rfl

theorem store_zero (m bs : List Byte) :
    store m 0 bs = if bs.length ≤ m.length then some (bs ++ m.drop bs.length) else none := by
  simp [store]

theorem store_zero_seg {s bs : List Byte} (h : bs.length = s.length) (m : List Byte) :
    store (s ++ m) 0 bs = some (bs ++ m) := by
  rw [store_zero, if_pos (by simp; omega), h, List.drop_left]

theorem load_shift {a : List Byte} {k : Nat} (ha : a.length = k) (m : List Byte) (off n : Nat) :
    load (a ++ m) (k + off) n = load m off n := by
  subst ha
  unfold load
  by_cases h : off + n ≤ m.length
  · rw [if_pos (by simp; omega), if_pos h, List.drop_append]
  · rw [if_neg (by simp; omega), if_neg h]

theorem load_zero_seg {s : List Byte} {n : Nat} (h : s.length = n) (m : List Byte) :
    load (s ++ m) 0 n = some s := by
  subst h
  unfold load
  rw [if_pos (by simp)]
  simp

theorem load_zero (m : List Byte) (n : Nat) :
    load m 0 n = if n ≤ m.length then some (m.take n) else none := by
  simp [load]

section segments

variable {s0 s1 s2 s3 rest : List Byte}

theorem wr32_seg0 (h0 : s0.length = 4) (v : Nat) :
    wr32 (s0 ++ (s1 ++ (s2 ++ (s3 ++ rest)))) 0 v = some (le32 v ++ (s1 ++ (s2 ++ (s3 ++ rest)))) :=
  store_zero_seg (by simp [h0]) _

theorem wr32_seg1 (h0 : s0.length = 4) (h1 : s1.length = 4) (v : Nat) :
    wr32 (s0 ++ (s1 ++ (s2 ++ (s3 ++ rest)))) 4 v = some (s0 ++ (le32 v ++ (s2 ++ (s3 ++ rest)))) := by
  have := store_shift h0 (s1 ++ (s2 ++ (s3 ++ rest))) 0 (le32 v)
  rw [store_zero_seg (by simp [h1])] at this
  exact this

theorem wr32_seg2 (h0 : s0.length = 4) (h1 : s1.length = 4) (h2 : s2.length = 4) (v : Nat) :
    wr32 (s0 ++ (s1 ++ (s2 ++ (s3 ++ rest)))) 8 v = some (s0 ++ (s1 ++ (le32 v ++ (s3 ++ rest)))) := by
  have := store_shift h0 (s1 ++ (s2 ++ (s3 ++ rest))) 4 (le32 v)
  rw [store_shift h1 (s2 ++ (s3 ++ rest)) 0 (le32 v), store_zero_seg (by simp [h2])] at this
  exact this

theorem wr32_seg3 (h0 : s0.length = 4) (h1 : s1.length = 4) (h2 : s2.length = 4)
    (h3 : s3.length = 4) (v : Nat) :
    wr32 (s0 ++ (s1 ++ (s2 ++ (s3 ++ rest)))) 12 v = some (s0 ++ (s1 ++ (s2 ++ (le32 v ++ rest)))) := by
  have := store_shift h0 (s1 ++ (s2 ++ (s3 ++ rest))) 8 (le32 v)
  rw [store_shift h1 (s2 ++ (s3 ++ rest)) 4 (le32 v), store_shift h2 (s3 ++ rest) 0 (le32 v),
    store_zero_seg (by simp [h3])] at this
  exact this

theorem store_payload (h0 : s0.length = 4) (h1 : s1.length = 4) (h2 : s2.length = 4)
    (h3 : s3.length = 4) (bs : List Byte) :
    store (s0 ++ (s1 ++ (s2 ++ (s3 ++ rest)))) 16 bs =
      if bs.length ≤ rest.length then
        some (s0 ++ (s1 ++ (s2 ++ (s3 ++ (bs ++ rest.drop bs.length))))) else none := by
  have := store_shift h0 (s1 ++ (s2 ++ (s3 ++ rest))) 12 bs
  rw [store_shift h1 (s2 ++ (s3 ++ rest)) 8 bs, store_shift h2 (s3 ++ rest) 4 bs,
    store_shift h3 rest 0 bs, store_zero] at this
  rw [show (16 : Nat) = 4 + 12 from rfl, this]
  split <;> rfl

theorem rd32_seg0 (h0 : s0.length = 4) :
    rd32 (s0 ++ (s1 ++ (s2 ++ (s3 ++ rest)))) 0 = some (of_le32 s0) := by
  unfold rd32; rw [load_zero_seg h0]; rfl

theorem rd32_seg1 (h0 : s0.length = 4) (h1 : s1.length = 4) :
    rd32 (s0 ++ (s1 ++ (s2 ++ (s3 ++ rest)))) 4 = some (of_le32 s1) := by
  unfold rd32
  rw [show (4 : Nat) = 4 + 0 from rfl, load_shift h0, load_zero_seg h1]; rfl

theorem rd32_seg2 (h0 : s0.length = 4) (h1 : s1.length = 4) (h2 : s2.length = 4) :
    rd32 (s0 ++ (s1 ++ (s2 ++ (s3 ++ rest)))) 8 = some (of_le32 s2) := by
  unfold rd32
  rw [show (8 : Nat) = 4 + (4 + 0) from rfl, load_shift h0, load_shift h1, load_zero_seg h2]; rfl

theorem rd32_seg3 (h0 : s0.length = 4) (h1 : s1.length = 4) (h2 : s2.length = 4)
    (h3 : s3.length = 4) :
    rd32 (s0 ++ (s1 ++ (s2 ++ (s3 ++ rest)))) 12 = some (of_le32 s3) := by
  unfold rd32
  rw [show (12 : Nat) = 4 + (4 + (4 + 0)) from rfl, load_shift h0, load_shift h1, load_shift h2,
    load_zero_seg h3]; rfl

theorem load_payload (h0 : s0.length = 4) (h1 : s1.length = 4) (h2 : s2.length = 4)
    (h3 : s3.length = 4) (n : Nat) :
    load (s0 ++ (s1 ++ (s2 ++ (s3 ++ rest)))) 16 n =
      if n ≤ rest.length then some (rest.take n) else none := by
  rw [show (16 : Nat) = 4 + (4 + (4 + (4 + 0))) from rfl, load_shift h0, load_shift h1,
    load_shift h2, load_shift h3, load_zero]

theorem drop_payload (h0 : s0.length = 4) (h1 : s1.length = 4) (h2 : s2.length = 4)
    (h3 : s3.length = 4) :
    (s0 ++ (s1 ++ (s2 ++ (s3 ++ rest)))).drop 16 = rest := by
  rw [show (16 : Nat) = 4 + (4 + (4 + 4)) from rfl, ← List.drop_drop, ← List.drop_drop,
    ← List.drop_drop, List.drop_left' h0, List.drop_left' h1, List.drop_left' h2,
    List.drop_left' h3]

end segments

theorem to_uint32_lt (n : Int) : to_uint32 n < 4294967296 := by
  unfold to_uint32; omega

theorem length_of_store {m m2 bs : List Byte} {off : Nat} (h : store m off bs = some m2) :
    m2.length = m.length := by
  unfold store at h
  split at h
  · cases h
    simp
    omega
  · cases h

/-! ## The compress capabilities -/

theorem to_uint32_size_t (y : Int) : to_uint32 (to_size_t y) = to_uint32 y := by
  unfold to_uint32 to_size_t; omega

theorem to_uint32_int32_add (p k : Int) : to_uint32 (to_int32 p + k) = to_uint32 (p + k) := by
  unfold to_uint32 to_int32; omega

theorem hdr_writes_none {dst : List Byte} (h : dst.length < 16) (a b c : Nat)
    (k : List Byte → Option CodecResult) :
    (wr32 dst 0 a).bind (fun d => (wr32 d 4 b).bind (fun d => (wr32 d 12 c).bind k)) = none := by
  cases h1 : wr32 dst 0 a with
  | none => rfl
  | some d1 =>
    show (wr32 d1 4 b).bind (fun d => (wr32 d 12 c).bind k) = none
    cases h2 : wr32 d1 4 b with
    | none => rfl
    | some d2 =>
      show (wr32 d2 12 c).bind k = none
      have hl : d2.length = dst.length := by
        rw [length_of_store h2, length_of_store h1]
      have : wr32 d2 12 c = none := by
        unfold wr32 store
        rw [if_neg (by simp; omega)]
      rw [this]; rfl

section closed

variable {s0 s1 s2 s3 rest : List Byte}

theorem raw_wrapper_compress_seg (h0 : s0.length = 4) (h1 : s1.length = 4) (h2 : s2.length = 4)
    (h3 : s3.length = 4) (W : World) (ctx : intel_codec_context_t) (src : List Byte)
    (n dl : Nat) :
    raw_wrapper_compress W ctx src n (s0 ++ (s1 ++ (s2 ++ (s3 ++ rest)))) dl =
      if n ≤ src.length ∧ n ≤ rest.length then
        some ⟨le32 (to_uint32 RAW_MAGIC) ++ (le32 INTEL_CODEC_RAW ++
            (le32 (to_uint32 (to_size_t ((n : Int) + sizeof_header))) ++
              (le32 n ++ (src.take n ++ rest.drop n)))),
          to_uint32 (to_size_t ((n : Int) + sizeof_header)), 0⟩
      else none := by
  unfold raw_wrapper_compress
  by_cases hs : n ≤ src.length <;> by_cases hr : n ≤ rest.length <;>
    simp [off_magic, off_codec, off_uncompressed_size, off_compressed_size, sizeof_header,
      wr32_seg0, wr32_seg1, wr32_seg2, wr32_seg3, store_payload, memcpy, load_zero,
      h0, h1, h2, h3, hs, hr, Nat.min_eq_left]

end closed

theorem lz4_compress_post {W : World} {ctx : intel_codec_context_t} {src dst : List Byte}
    {n dl : Nat} {cr : CodecResult}
    (h : lz4_ipp_wrapper_compress W ctx src n dst dl = some cr) :
    CompressPost W ctx src n dst dl 1 cr := by
  by_cases hlen : 16 ≤ dst.length
  · obtain ⟨s0, s1, s2, s3, rest, rfl, h0, h1, h2, h3⟩ := exists_segments hlen
    unfold lz4_ipp_wrapper_compress at h
    cases hf : W.g_lz4_ipp_wrapper_context.compress with
    | none =>
      simp [hf, off_magic, off_codec, off_uncompressed_size, off_compressed_size, sizeof_header,
        wr32_seg0, wr32_seg1, wr32_seg2, wr32_seg3, store_payload, h0, h1, h2, h3] at h
    | some f =>
      generalize ho : f src (to_int32 n) (to_int32 dl) ctx.level = out at h
      by_cases hb : out.bytes.length ≤ rest.length
      · by_cases hr : to_int32 out.ret = 0
        · simp [hf, ho, hb, hr, off_magic, off_codec, off_uncompressed_size, off_compressed_size,
            sizeof_header, wr32_seg0, wr32_seg1, wr32_seg2, wr32_seg3, store_payload,
            h0, h1, h2, h3] at h
          subst h
          refine ⟨hlen, by simp [h0, h1, h2, h3]; omega, s2, _, rfl, h2, ?_⟩
          intro hc; simp at hc
        · simp [hf, ho, hb, hr, off_magic, off_codec, off_uncompressed_size, off_compressed_size,
            sizeof_header, wr32_seg0, wr32_seg1, wr32_seg2, wr32_seg3, store_payload,
            h0, h1, h2, h3] at h
          subst h
          refine ⟨hlen, by simp [h0, h1, h2, h3]; omega, _, _, rfl, length_le32 _, ?_⟩
          intro _
          refine ⟨out.ret, by simp [reported_payload_size, hf, ho], ?_, rfl⟩
          simp [to_uint32_size_t, to_uint32_int32_add]
      · simp [hf, ho, hb, off_magic, off_codec, off_uncompressed_size, off_compressed_size,
            sizeof_header, wr32_seg0, wr32_seg1, wr32_seg2, wr32_seg3, store_payload,
            h0, h1, h2, h3] at h
  · exfalso
    unfold lz4_ipp_wrapper_compress at h
    simp only [Option.bind_eq_bind, off_magic, off_codec, off_uncompressed_size] at h
    rw [hdr_writes_none (by omega)] at h
    cases h

theorem lz4_hc_compress_post {W : World} {ctx : intel_codec_context_t} {src dst : List Byte}
    {n dl : Nat} {cr : CodecResult}
    (h : lz4_ipp_wrapper_compress_hc W ctx src n dst dl = some cr) :
    CompressPost W ctx src n dst dl 2 cr := by
  by_cases hlen : 16 ≤ dst.length
  · obtain ⟨s0, s1, s2, s3, rest, rfl, h0, h1, h2, h3⟩ := exists_segments hlen
    unfold lz4_ipp_wrapper_compress_hc at h
    cases hf : W.g_lz4_ipp_wrapper_context.compress_hc with
    | none =>
      simp [hf, off_magic, off_codec, off_uncompressed_size, off_compressed_size,
            sizeof_header, wr32_seg0, wr32_seg1, wr32_seg2, wr32_seg3, store_payload,
            h0, h1, h2, h3] at h
    | some f =>
      generalize ho : f src (to_int32 n) (to_int32 dl) ctx.level = out at h
      by_cases hb : out.bytes.length ≤ rest.length
      · by_cases hr : to_int32 out.ret = 0
        · simp [hf, ho, hb, hr, off_magic, off_codec, off_uncompressed_size, off_compressed_size,
            sizeof_header, wr32_seg0, wr32_seg1, wr32_seg2, wr32_seg3, store_payload,
            h0, h1, h2, h3] at h
          subst h
          refine ⟨hlen, by simp [h0, h1, h2, h3]; omega, s2, _, rfl, h2, ?_⟩
          intro hc; simp at hc
        · simp [hf, ho, hb, hr, off_magic, off_codec, off_uncompressed_size, off_compressed_size,
            sizeof_header, wr32_seg0, wr32_seg1, wr32_seg2, wr32_seg3, store_payload,
            h0, h1, h2, h3] at h
          subst h
          refine ⟨hlen, by simp [h0, h1, h2, h3]; omega, _, _, rfl, length_le32 _, ?_⟩
          intro _
          refine ⟨out.ret, by simp [reported_payload_size, hf, ho], ?_, rfl⟩
          simp [to_uint32_size_t, to_uint32_int32_add]
      · simp [hf, ho, hb, off_magic, off_codec, off_uncompressed_size, off_compressed_size,
            sizeof_header, wr32_seg0, wr32_seg1, wr32_seg2, wr32_seg3, store_payload,
            h0, h1, h2, h3] at h
  · exfalso
    unfold lz4_ipp_wrapper_compress_hc at h
    simp only [Option.bind_eq_bind, off_magic, off_codec, off_uncompressed_size] at h
    rw [hdr_writes_none (by omega)] at h
    cases h

theorem zlib_compress_post {W : World} {ctx : intel_codec_context_t} {src dst : List Byte}
    {n dl : Nat} {cr : CodecResult}
    (h : zlib_ipp_wrapper_compress W ctx src n dst dl = some cr) :
    CompressPost W ctx src n dst dl 3 cr := by
  by_cases hlen : 16 ≤ dst.length
  · obtain ⟨s0, s1, s2, s3, rest, rfl, h0, h1, h2, h3⟩ := exists_segments hlen
    unfold zlib_ipp_wrapper_compress at h
    cases hf : W.g_zlib_ipp_wrapper_context.compress with
    | none =>
      simp [hf, off_magic, off_codec, off_uncompressed_size, off_compressed_size,
            sizeof_header, wr32_seg0, wr32_seg1, wr32_seg2, wr32_seg3, store_payload,
            h0, h1, h2, h3] at h
    | some f =>
      generalize ho : f (to_size_t ((dl : Int) - 16)) src n ctx.level = out at h
      by_cases hb : out.bytes.length ≤ rest.length
      · by_cases hr : to_int32 out.ret = W.consts.Z_OK
        · simp [hf, ho, hb, hr, off_magic, off_codec, off_uncompressed_size, off_compressed_size,
            sizeof_header, wr32_seg0, wr32_seg1, wr32_seg2, wr32_seg3, store_payload,
            h0, h1, h2, h3] at h
          subst h
          refine ⟨hlen, by simp [h0, h1, h2, h3]; omega, _, _, rfl, length_le32 _, ?_⟩
          intro _
          refine ⟨out.destLen, by simp [reported_payload_size, hf, ho, sizeof_header], ?_, rfl⟩
          simp [to_uint32_size_t]
        · simp [hf, ho, hb, hr, off_magic, off_codec, off_uncompressed_size, off_compressed_size,
            sizeof_header, wr32_seg0, wr32_seg1, wr32_seg2, wr32_seg3, store_payload,
            h0, h1, h2, h3] at h
          subst h
          refine ⟨hlen, by simp [h0, h1, h2, h3]; omega, s2, _, rfl, h2, ?_⟩
          intro hc; simp at hc
      · simp [hf, ho, hb, off_magic, off_codec, off_uncompressed_size, off_compressed_size,
            sizeof_header, wr32_seg0, wr32_seg1, wr32_seg2, wr32_seg3, store_payload,
            h0, h1, h2, h3] at h
  · exfalso
    unfold zlib_ipp_wrapper_compress at h
    simp only [Option.bind_eq_bind, off_magic, off_codec, off_uncompressed_size] at h
    rw [hdr_writes_none (by omega)] at h
    cases h

theorem zstd_compress_post {W : World} {ctx : intel_codec_context_t} {src dst : List Byte}
    {n dl : Nat} {cr : CodecResult}
    (h : zstd_wrapper_compress W ctx src n dst dl = some cr) :
    CompressPost W ctx src n dst dl 5 cr := by
  by_cases hlen : 16 ≤ dst.length
  · obtain ⟨s0, s1, s2, s3, rest, rfl, h0, h1, h2, h3⟩ := exists_segments hlen
    unfold zstd_wrapper_compress at h
    cases hf : W.g_zstd_wrapper_context.compress with
    | none =>
      simp [hf, off_magic, off_codec, off_uncompressed_size, off_compressed_size,
            sizeof_header, wr32_seg0, wr32_seg1, wr32_seg2, wr32_seg3, store_payload,
            h0, h1, h2, h3] at h
    | some f =>
      generalize ho : f (to_size_t (to_int32 dl)) src n ctx.level = out at h
      cases he : W.g_zstd_wrapper_context.isError with
      | none =>
        simp [hf, ho, he, off_magic, off_codec, off_uncompressed_size, off_compressed_size,
            sizeof_header, wr32_seg0, wr32_seg1, wr32_seg2, wr32_seg3, store_payload,
            h0, h1, h2, h3] at h
      | some isError =>
        by_cases hb : out.bytes.length ≤ rest.length
        · simp [hf, ho, hb, he, off_magic, off_codec, off_uncompressed_size, off_compressed_size,
            sizeof_header, wr32_seg0, wr32_seg1, wr32_seg2, wr32_seg3, store_payload,
            h0, h1, h2, h3] at h
          subst h
          refine ⟨hlen, by simp [h0, h1, h2, h3]; omega, _, _, rfl, length_le32 _, ?_⟩
          intro _
          refine ⟨out.ret, by simp [reported_payload_size, hf, ho], ?_, rfl⟩
          simp [to_uint32_size_t, to_uint32_int32_add]
        · simp [hf, ho, hb, he, off_magic, off_codec, off_uncompressed_size, off_compressed_size,
            sizeof_header, wr32_seg0, wr32_seg1, wr32_seg2, wr32_seg3, store_payload,
            h0, h1, h2, h3] at h
  · exfalso
    unfold zstd_wrapper_compress at h
    simp only [Option.bind_eq_bind, off_magic, off_codec, off_uncompressed_size] at h
    rw [hdr_writes_none (by omega)] at h
    cases h

theorem igzip_compress_post {W : World} {ctx : intel_codec_context_t} {src dst : List Byte}
    {n dl : Nat} {cr : CodecResult}
    (h : igzip_wrapper_compress W ctx src n dst dl = some cr) :
    CompressPost W ctx src n dst dl 4 cr := by
  by_cases hlen : 16 ≤ dst.length
  · obtain ⟨s0, s1, s2, s3, rest, rfl, h0, h1, h2, h3⟩ := exists_segments hlen
    unfold igzip_wrapper_compress at h
    cases hi : W.g_igzip_wrapper_context.isal_deflate_stateless_init_func with
    | none =>
      simp [hi, off_magic, off_codec, off_uncompressed_size, off_compressed_size,
            sizeof_header, wr32_seg0, wr32_seg1, wr32_seg2, wr32_seg3, store_payload,
            h0, h1, h2, h3] at h
    | some init =>
      cases hf : W.g_igzip_wrapper_context.isal_deflate_stateless_func with
      | none =>
        simp [hi, hf, off_magic, off_codec, off_uncompressed_size, off_compressed_size,
            sizeof_header, wr32_seg0, wr32_seg1, wr32_seg2, wr32_seg3, store_payload,
            h0, h1, h2, h3] at h
      | some f =>
        have hs : reported_payload_size W ctx src n dl 4 =
            some ((f (igzip_deflate_stream W ctx src n dl init)).stream.total_out : Int) := by
          simp [reported_payload_size, hi, hf]
        unfold igzip_deflate_stream at hs
        generalize ho : f _ = out at hs
        simp only [hi, hf, Option.bind_eq_bind, Option.some_bind, ho] at h
        by_cases hb : out.bytes.length ≤ rest.length
        · simp only [off_magic, off_codec, off_uncompressed_size, off_compressed_size,
            sizeof_header, wr32_seg0, wr32_seg1, wr32_seg2, wr32_seg3, store_payload,
            h0, h1, h2, h3, hb, length_le32, if_true,
            Option.some_bind] at h
          split_ifs at h
          · simp at h
            subst h
            refine ⟨hlen, by simp [h0, h1, h2, h3]; omega, s2, _, rfl, h2, ?_⟩
            intro hc; simp at hc
          · simp at h
            subst h
            refine ⟨hlen, by simp [h0, h1, h2, h3]; omega, s2, _, rfl, h2, ?_⟩
            intro hc; simp at hc
          · simp at h
            subst h
            refine ⟨hlen, by simp [h0, h1, h2, h3]; omega, _, _, rfl, length_le32 _, ?_⟩
            intro _
            refine ⟨_, hs, ?_, rfl⟩
            simp [to_uint32_size_t]
        · simp [hb, off_magic, off_codec, off_uncompressed_size, off_compressed_size,
            sizeof_header, wr32_seg0, wr32_seg1, wr32_seg2, wr32_seg3, store_payload,
            h0, h1, h2, h3] at h
  · exfalso
    unfold igzip_wrapper_compress at h
    simp only [Option.bind_eq_bind, off_magic, off_codec, off_uncompressed_size] at h
    rw [hdr_writes_none (by omega)] at h
    cases h

theorem raw_compress_post {W : World} {ctx : intel_codec_context_t} {src dst : List Byte}
    {n dl : Nat} {cr : CodecResult}
    (h : raw_wrapper_compress W ctx src n dst dl = some cr) :
    CompressPost W ctx src n dst dl 0 cr := by
  by_cases hlen : 16 ≤ dst.length
  · obtain ⟨s0, s1, s2, s3, rest, rfl, h0, h1, h2, h3⟩ := exists_segments hlen
    rw [raw_wrapper_compress_seg h0 h1 h2 h3] at h
    split_ifs at h with hc
    cases h
    refine ⟨hlen, by simp [h0, h1, h2, h3]; omega, _, _, rfl, length_le32 _, ?_⟩
    intro _
    refine ⟨n, rfl, ?_, rfl⟩
    simp [to_uint32_size_t, sizeof_header]
  · exfalso
    unfold raw_wrapper_compress at h
    have : memcpy dst 16 src 0 n = none ∨ True := Or.inr trivial
    simp only [Option.bind_eq_bind, off_magic, off_codec, sizeof_header] at h
    cases h1 : wr32 dst 0 (to_uint32 RAW_MAGIC) with
    | none => simp [h1] at h
    | some d1 =>
      cases h2 : wr32 d1 4 INTEL_CODEC_RAW with
      | none => simp [h1, h2] at h
      | some d2 =>
        have hl : d2.length = dst.length := by
          rw [length_of_store h2, length_of_store h1]
        have : memcpy d2 16 src 0 n = none := by
          unfold memcpy
          cases hld : load src 0 n with
          | none => rfl
          | some bs =>
            show store d2 16 bs = none
            unfold store
            rw [if_neg (by omega)]
        simp [h1, h2, this] at h

/-! ## The raw codec -/

theorem length_frame_bytes (m c cs us : Nat) (p : List Byte) :
    (frame_bytes m c cs us p).length = p.length + 16 := by
  simp [frame_bytes]; omega

theorem length_raw_frame (x : List Byte) : (raw_frame x).length = x.length + 16 :=
  length_frame_bytes _ _ _ _ _

theorem raw_magic_value : to_uint32 RAW_MAGIC = 1463898697 := by decide

theorem raw_wrapper_compress_eq (W : World) (ctx : intel_codec_context_t)
    (x tail dst : List Byte) (dl : Nat) (hx : x.length + 16 < 4294967296)
    (hcap : x.length + 16 ≤ dst.length) :
    raw_wrapper_compress W ctx (x ++ tail) x.length dst dl =
      some ⟨raw_frame x ++ dst.drop (x.length + 16), x.length + 16, 0⟩ := by
  obtain ⟨s0, s1, s2, s3, rest, rfl, h0, h1, h2, h3⟩ := exists_segments (by omega : 16 ≤ dst.length)
  have hr : x.length ≤ rest.length := by
    simp [h0, h1, h2, h3] at hcap; omega
  rw [raw_wrapper_compress_seg h0 h1 h2 h3, if_pos ⟨by simp, hr⟩]
  have hsz : to_uint32 (to_size_t ((x.length : Int) + sizeof_header)) = x.length + 16 := by
    unfold to_uint32 to_size_t sizeof_header; omega
  rw [hsz, Nat.add_comm x.length 16, ← List.drop_drop, drop_payload h0 h1 h2 h3]
  simp [raw_frame, frame_bytes, Nat.add_comm]

theorem raw_wrapper_decompress_eq (W : World) (ctx : intel_codec_context_t)
    (x junk dst : List Byte) (sl dl : Nat) (hx : x.length < 4294967296)
    (hcap : x.length ≤ dst.length) :
    raw_wrapper_decompress W ctx (raw_frame x ++ junk) sl dst dl =
      some ⟨x ++ dst.drop x.length, x.length, 0⟩ := by
  unfold raw_wrapper_decompress raw_frame frame_bytes
  simp only [List.append_assoc, off_codec, off_magic, off_uncompressed_size, sizeof_header,
    rd32_seg0 (length_le32 _), rd32_seg1 (length_le32 _) (length_le32 _),
    rd32_seg3 (length_le32 _) (length_le32 _) (length_le32 _) (length_le32 _),
    Option.bind_eq_bind, Option.some_bind, memcpy,
    load_payload (length_le32 _) (length_le32 _) (length_le32 _) (length_le32 _)]
  rw [of_le32_le32 (by decide), of_le32_le32 (to_uint32_lt _), of_le32_le32 hx]
  simp [INTEL_CODEC_RAW, store_zero, hcap]

/-! ## The dispatchers -/

theorem to_int32_of_lt {n : Nat} (h : n < 2147483648) : to_int32 (n : Int) = n := by
  unfold to_int32; omega

theorem compress_entry_post {W : World} {ctx : intel_codec_context_t} {src dst : List Byte}
    {n dl i : Nat} {cr : CodecResult} {desc : intel_codec_desc_t} {f : compress_func}
    (ht : intel_codec_table[i]? = some desc) (hf : desc.compress = some f)
    (h : f W ctx src n dst dl = some cr) : CompressPost W ctx src n dst dl i cr := by
  have hi : i < 6 := by
    by_contra hn
    have : intel_codec_table[i]? = none := List.getElem?_eq_none (by simp [intel_codec_table]; omega)
    rw [this] at ht; cases ht
  interval_cases i <;> simp [intel_codec_table] at ht <;> subst ht <;> cases hf
  · exact raw_compress_post h
  · exact lz4_compress_post h
  · exact lz4_hc_compress_post h
  · exact zlib_compress_post h
  · exact igzip_compress_post h
  · exact zstd_compress_post h

theorem compress_dispatch (W : World) (ctx : intel_codec_context_t) (src dst : List Byte)
    (sl dl : Int) (hc0 : 0 ≤ ctx.codec) (hc5 : ctx.codec ≤ 5) :
    ∃ desc f, intel_codec_table[ctx.codec.toNat]? = some desc ∧ desc.compress = some f ∧
      Java_com_intel_compression_jni_IntelCompressionCodecJNI_compress W ctx src sl dst dl =
        (f W ctx src (to_uint32 sl) dst (to_uint32 dl)).bind fun r =>
          if r.ret ≠ 0 then
            (raw_wrapper_compress W ctx src (to_uint32 sl) r.dst r.dstLen).bind fun r2 =>
              some ⟨r2.dst, to_int32 r2.dstLen, [], [ctx.codec.toNat, INTEL_CODEC_RAW]⟩
          else some ⟨r.dst, to_int32 r.dstLen, [], [ctx.codec.toNat]⟩ := by
  have hcases : ctx.codec = 0 ∨ ctx.codec = 1 ∨ ctx.codec = 2 ∨ ctx.codec = 3 ∨ ctx.codec = 4 ∨
      ctx.codec = 5 := by omega
  unfold Java_com_intel_compression_jni_IntelCompressionCodecJNI_compress
  rcases hcases with h | h | h | h | h | h <;> rw [h] <;>
    exact ⟨_, _, rfl, rfl, by simp [intel_codec_table]⟩

theorem decompress_dispatch (W : World) (ctx : intel_codec_context_t) (src dst : List Byte)
    (sl dl : Int) {c : Nat} (hrd : rd32 src off_codec = some c) (hc : c < 6) :
    ∃ desc f, intel_codec_table[c]? = some desc ∧ desc.decompress = some f ∧
      Java_com_intel_compression_jni_IntelCompressionCodecJNI_decompress W ctx src sl dst dl =
        (f W ctx src (to_uint32 sl) dst (to_uint32 dl)).bind fun r =>
          some ⟨r.dst, to_int32 r.dstLen,
            if r.ret ≠ 0 then [JavaException.InternalError "Could not decompress data."] else [],
            [c]⟩ := by
  unfold Java_com_intel_compression_jni_IntelCompressionCodecJNI_decompress
  rw [hrd]
  interval_cases c <;>
    refine ⟨_, _, rfl, rfl, ?_⟩ <;>
    simp [intel_codec_table] <;>
    congr 1 <;> funext r <;> split <;> simp_all

theorem rd32_raw_frame_codec (x junk : List Byte) :
    rd32 (raw_frame x ++ junk) off_codec = some 0 := by
  unfold raw_frame frame_bytes
  simp only [List.append_assoc, off_codec]
  rw [rd32_seg1 (length_le32 _) (length_le32 _)]
  rfl

theorem decompress_raw_frame (W : World) (ctx : intel_codec_context_t)
    (x junk dst : List Byte) (sl dl : Int) (hx : x.length < 2147483648)
    (hcap : x.length ≤ dst.length) :
    Java_com_intel_compression_jni_IntelCompressionCodecJNI_decompress W ctx
        (raw_frame x ++ junk) sl dst dl =
      some ⟨x ++ dst.drop x.length, x.length, [], [0]⟩ := by
  obtain ⟨desc, f, ht, hf, heq⟩ := decompress_dispatch W ctx (raw_frame x ++ junk) dst sl dl
    (rd32_raw_frame_codec x junk) (by decide)
  simp [intel_codec_table] at ht
  subst ht
  cases hf
  rw [heq, raw_wrapper_decompress_eq W ctx x junk dst _ _ (by omega) hcap]
  simp [to_int32_of_lt hx]

/-! ## Frames left by the compress dispatcher -/

theorem take_frame_append (x rest : List Byte) :
    (raw_frame x ++ rest).take (x.length + 16) = raw_frame x :=
  List.take_left' (length_raw_frame x)

theorem compress_raw_codec (W : World) (level : Int) (x tail dst : List Byte) (destLen : Int)
    (hx : x.length + 16 < 2147483648) (hmem : x.length + 16 ≤ dst.length) :
    Java_com_intel_compression_jni_IntelCompressionCodecJNI_compress W ⟨0, level⟩
        (x ++ tail) x.length dst destLen =
      some ⟨raw_frame x ++ dst.drop (x.length + 16), x.length + 16, [], [0]⟩ := by
  obtain ⟨desc, f, ht, hf, heq⟩ := compress_dispatch W ⟨0, level⟩ (x ++ tail) dst x.length
    destLen (le_refl _) (by show (0 : Int) ≤ 5; decide)
  simp [intel_codec_table] at ht
  subst ht
  cases hf
  rw [heq, to_uint32_of_lt (by omega),
    raw_wrapper_compress_eq W _ x tail dst _ (by omega) hmem]
  have : to_int32 ((x.length : Int) + 16) = x.length + 16 := by
    unfold to_int32; omega
  simp [this]

theorem rd32_frame_bytes (m c cs us : Nat) (p junk : List Byte) (hm : m < 4294967296)
    (hc : c < 4294967296) (hcs : cs < 4294967296) (hus : us < 4294967296) :
    rd32 (frame_bytes m c cs us p ++ junk) off_magic = some m ∧
    rd32 (frame_bytes m c cs us p ++ junk) off_codec = some c ∧
    rd32 (frame_bytes m c cs us p ++ junk) off_compressed_size = some cs ∧
    rd32 (frame_bytes m c cs us p ++ junk) off_uncompressed_size = some us ∧
    load (frame_bytes m c cs us p ++ junk) sizeof_header p.length = some p := by
  unfold frame_bytes
  simp only [List.append_assoc, off_magic, off_codec, off_compressed_size,
    off_uncompressed_size, sizeof_header]
  rw [rd32_seg0 (length_le32 _), rd32_seg1 (length_le32 _) (length_le32 _),
    rd32_seg2 (length_le32 _) (length_le32 _) (length_le32 _),
    rd32_seg3 (length_le32 _) (length_le32 _) (length_le32 _) (length_le32 _),
    load_payload (length_le32 _) (length_le32 _) (length_le32 _) (length_le32 _),
    of_le32_le32 hm, of_le32_le32 hc, of_le32_le32 hcs, of_le32_le32 hus]
  simp

theorem raw_wrapper_compress_ret {W : World} {ctx : intel_codec_context_t} {src dst : List Byte}
    {n dl : Nat} {cr : CodecResult}
    (h : raw_wrapper_compress W ctx src n dst dl = some cr) : cr.ret = 0 := by
  obtain ⟨hlen, _⟩ := raw_compress_post h
  obtain ⟨s0, s1, s2, s3, rest, rfl, h0, h1, h2, h3⟩ := exists_segments hlen
  rw [raw_wrapper_compress_seg h0 h1 h2 h3] at h
  split_ifs at h
  cases h
  rfl

theorem compress_dispatch_post {W : World} {ctx : intel_codec_context_t} {src dst : List Byte}
    {sl dl : Int} {r : JniResult} (hc0 : 0 ≤ ctx.codec) (hc5 : ctx.codec ≤ 5)
    (h : Java_com_intel_compression_jni_IntelCompressionCodecJNI_compress W ctx src sl dst dl =
      some r) :
    ∃ cr, CompressPost W ctx src (to_uint32 sl) dst (to_uint32 dl) ctx.codec.toNat cr ∧
      ((cr.ret = 0 ∧ r = ⟨cr.dst, to_int32 cr.dstLen, [], [ctx.codec.toNat]⟩) ∨
        (cr.ret ≠ 0 ∧ ∃ r2, CompressPost W ctx src (to_uint32 sl) cr.dst cr.dstLen 0 r2 ∧
          r2.ret = 0 ∧ r = ⟨r2.dst, to_int32 r2.dstLen, [], [ctx.codec.toNat, 0]⟩)) := by
  obtain ⟨desc, f, ht, hf, heq⟩ := compress_dispatch W ctx src dst sl dl hc0 hc5
  rw [heq] at h
  cases hrun : f W ctx src (to_uint32 sl) dst (to_uint32 dl) with
  | none => rw [hrun] at h; cases h
  | some cr =>
    rw [hrun] at h
    simp only [Option.some_bind] at h
    refine ⟨cr, compress_entry_post ht hf hrun, ?_⟩
    by_cases hz : cr.ret = 0
    · left
      rw [if_neg (by simpa using hz)] at h
      cases h
      exact ⟨hz, rfl⟩
    · right
      rw [if_pos hz] at h
      cases hraw : raw_wrapper_compress W ctx src (to_uint32 sl) cr.dst cr.dstLen with
      | none => rw [hraw] at h; cases h
      | some r2 =>
        rw [hraw] at h
        cases h
        exact ⟨hz, r2, raw_compress_post hraw, raw_wrapper_compress_ret hraw, rfl⟩

theorem CompressPost.codec_field {W : World} {ctx : intel_codec_context_t} {src dst : List Byte}
    {n dl i : Nat} {cr : CodecResult} (h : CompressPost W ctx src n dst dl i cr)
    (hi : i < 4294967296) :
    rd32 cr.dst off_codec = some i := by
  obtain ⟨_, _, w, payload, hd, hw, _⟩ := h
  rw [hd, off_codec, rd32_seg1 (length_le32 _) (length_le32 _), of_le32_le32 hi]

theorem lz4_ipp_wrapper_compress_eq {W : World} {ctx : intel_codec_context_t}
    {src dst : List Byte} {n dl : Nat} {f : dlsym_LZ4_IPP_compress} {out : LibWrite}
    (hf : W.g_lz4_ipp_wrapper_context.compress = some f)
    (ho : f src (to_int32 n) (to_int32 dl) ctx.level = out)
    (hr : to_int32 out.ret ≠ 0) (hcap : 16 + out.bytes.length ≤ dst.length) :
    lz4_ipp_wrapper_compress W ctx src n dst dl =
      some ⟨frame_bytes (to_uint32 W.g_lz4_ipp_wrapper_context.magic) INTEL_CODEC_LZ4_IPP
          (to_uint32 (out.ret + 16)) n out.bytes ++ dst.drop (16 + out.bytes.length),
        to_uint32 (out.ret + 16), 0⟩ := by
  obtain ⟨s0, s1, s2, s3, rest, rfl, h0, h1, h2, h3⟩ := exists_segments (by omega : 16 ≤ dst.length)
  have hb : out.bytes.length ≤ rest.length := by
    simp [h0, h1, h2, h3] at hcap; omega
  unfold lz4_ipp_wrapper_compress
  rw [← List.drop_drop, drop_payload h0 h1 h2 h3]
  simp [hf, ho, hb, hr, off_magic, off_codec, off_uncompressed_size, off_compressed_size,
    sizeof_header, wr32_seg0, wr32_seg1, wr32_seg2, wr32_seg3, store_payload,
    h0, h1, h2, h3, frame_bytes, to_uint32_size_t, to_uint32_int32_add]

theorem lz4_init_spec (L : DynamicLinker) (W : World) :
    (lz4_ipp_wrapper_init L W).1.g_zlib_ipp_wrapper_context = W.g_zlib_ipp_wrapper_context ∧
    (lz4_ipp_wrapper_init L W).1.g_igzip_wrapper_context = W.g_igzip_wrapper_context ∧
    (lz4_ipp_wrapper_init L W).1.g_zstd_wrapper_context = W.g_zstd_wrapper_context ∧
    ((lz4_ipp_wrapper_init L W).1.g_lz4_ipp_wrapper_context.magic =
        W.g_lz4_ipp_wrapper_context.magic ∨
      (lz4_ipp_wrapper_init L W).1.g_lz4_ipp_wrapper_context.magic = LZ4_IPP_MAGIC) ∧
    ((lz4_ipp_wrapper_init L W).2 = 0 →
      (lz4_ipp_wrapper_init L W).1.g_lz4_ipp_wrapper_context.magic = LZ4_IPP_MAGIC) ∧
    ∀ W2, (lz4_ipp_wrapper_init L W2).2 = (lz4_ipp_wrapper_init L W).2 := by
  unfold lz4_ipp_wrapper_init
  rcases L.liblz4 with _ | ⟨⟨_ | a, _ | b, _ | c⟩⟩ <;> simp

theorem zlib_init_spec (L : DynamicLinker) (W : World) :
    (zlib_ipp_wrapper_init L W).1.g_lz4_ipp_wrapper_context = W.g_lz4_ipp_wrapper_context ∧
    (zlib_ipp_wrapper_init L W).1.g_igzip_wrapper_context = W.g_igzip_wrapper_context ∧
    (zlib_ipp_wrapper_init L W).1.g_zstd_wrapper_context = W.g_zstd_wrapper_context ∧
    ((zlib_ipp_wrapper_init L W).1.g_zlib_ipp_wrapper_context.magic =
        W.g_zlib_ipp_wrapper_context.magic ∨
      (zlib_ipp_wrapper_init L W).1.g_zlib_ipp_wrapper_context.magic = ZLIB_IPP_MAGIC) ∧
    ((zlib_ipp_wrapper_init L W).2 = 0 →
      (zlib_ipp_wrapper_init L W).1.g_zlib_ipp_wrapper_context.magic = ZLIB_IPP_MAGIC) ∧
    ∀ W2, (zlib_ipp_wrapper_init L W2).2 = (zlib_ipp_wrapper_init L W).2 := by
  unfold zlib_ipp_wrapper_init
  rcases L.libz with _ | ⟨⟨_ | a, _ | b⟩⟩ <;> simp

theorem igzip_init_spec (L : DynamicLinker) (W : World) :
    (igzip_wrapper_init L W).1.g_lz4_ipp_wrapper_context = W.g_lz4_ipp_wrapper_context ∧
    (igzip_wrapper_init L W).1.g_zlib_ipp_wrapper_context = W.g_zlib_ipp_wrapper_context ∧
    (igzip_wrapper_init L W).1.g_zstd_wrapper_context = W.g_zstd_wrapper_context ∧
    ((igzip_wrapper_init L W).1.g_igzip_wrapper_context.magic =
        W.g_igzip_wrapper_context.magic ∨
      (igzip_wrapper_init L W).1.g_igzip_wrapper_context.magic = IGZIP_MAGIC) ∧
    ((igzip_wrapper_init L W).2 = 0 →
      (igzip_wrapper_init L W).1.g_igzip_wrapper_context.magic = IGZIP_MAGIC) ∧
    ∀ W2, (igzip_wrapper_init L W2).2 = (igzip_wrapper_init L W).2 := by
  unfold igzip_wrapper_init
  rcases L.libisal with _ | ⟨⟨_ | a, _ | b, _ | c, _ | d⟩⟩ <;> simp

theorem zstd_init_spec (L : DynamicLinker) (W : World) :
    (zstd_wrapper_init L W).1.g_lz4_ipp_wrapper_context = W.g_lz4_ipp_wrapper_context ∧
    (zstd_wrapper_init L W).1.g_zlib_ipp_wrapper_context = W.g_zlib_ipp_wrapper_context ∧
    (zstd_wrapper_init L W).1.g_igzip_wrapper_context = W.g_igzip_wrapper_context ∧
    ((zstd_wrapper_init L W).1.g_zstd_wrapper_context.magic =
        W.g_zstd_wrapper_context.magic ∨
      (zstd_wrapper_init L W).1.g_zstd_wrapper_context.magic = ZSTD_MAGIC) ∧
    ((zstd_wrapper_init L W).2 = 0 →
      (zstd_wrapper_init L W).1.g_zstd_wrapper_context.magic = ZSTD_MAGIC) ∧
    ∀ W2, (zstd_wrapper_init L W2).2 = (zstd_wrapper_init L W).2 := by
  unfold zstd_wrapper_init
  rcases L.libzstd with _ | ⟨⟨_ | a, _ | b, _ | c⟩⟩ <;> simp

/-- After `init` from the zero-initialised globals every global magic is either
still 0 or the constant of its family, and it is the constant when the `init` of the
library returned 0. -/
theorem init_magics (L : DynamicLinker) (K : ExternalConstants) (m : Bool) (i : Nat) :
    let W := (Java_com_intel_compression_jni_IntelCompressionCodecJNI_init L
      (World.fresh K m)).world
    (codec_magic W i = family_magic i ∨ codec_magic W i = 0) ∧
    (library_init_status L (World.fresh K m) i = 0 → codec_magic W i = family_magic i) := by
  intro W
  have hW : W = (zstd_wrapper_init L (igzip_wrapper_init L (zlib_ipp_wrapper_init L
        (lz4_ipp_wrapper_init L (World.fresh K m)).1).1).1).1 := rfl
  obtain ⟨_, _, _, l4, l5, _⟩ := lz4_init_spec L (World.fresh K m)
  obtain ⟨z1, _, _, z4, z5, z6⟩ := zlib_init_spec L (lz4_ipp_wrapper_init L (World.fresh K m)).1
  obtain ⟨g1, g2, _, g4, g5, g6⟩ := igzip_init_spec L
    (zlib_ipp_wrapper_init L (lz4_ipp_wrapper_init L (World.fresh K m)).1).1
  obtain ⟨s1, s2, s3, s4, s5, s6⟩ := zstd_init_spec L (igzip_wrapper_init L
    (zlib_ipp_wrapper_init L (lz4_ipp_wrapper_init L (World.fresh K m)).1).1).1
  have e1 : W.g_lz4_ipp_wrapper_context =
      (lz4_ipp_wrapper_init L (World.fresh K m)).1.g_lz4_ipp_wrapper_context := by
    rw [hW, s1, g1, z1]
  have e3 : W.g_zlib_ipp_wrapper_context =
      (zlib_ipp_wrapper_init L (lz4_ipp_wrapper_init L
        (World.fresh K m)).1).1.g_zlib_ipp_wrapper_context := by
    rw [hW, s2, g2]
  have e4 : W.g_igzip_wrapper_context =
      (igzip_wrapper_init L (zlib_ipp_wrapper_init L (lz4_ipp_wrapper_init L
        (World.fresh K m)).1).1).1.g_igzip_wrapper_context := by
    rw [hW, s3]
  have f1 : (lz4_ipp_wrapper_init L (World.fresh K m)).1.g_lz4_ipp_wrapper_context.magic = 0 ∨
      (lz4_ipp_wrapper_init L (World.fresh K m)).1.g_lz4_ipp_wrapper_context.magic =
        LZ4_IPP_MAGIC := l4
  have hz0 : (lz4_ipp_wrapper_init L (World.fresh K m)).1.g_zlib_ipp_wrapper_context.magic = 0 := by
    rw [(lz4_init_spec L (World.fresh K m)).1]; rfl
  have hg0 : (zlib_ipp_wrapper_init L (lz4_ipp_wrapper_init L
      (World.fresh K m)).1).1.g_igzip_wrapper_context.magic = 0 := by
    rw [(zlib_init_spec L _).2.1, (lz4_init_spec L (World.fresh K m)).2.1]; rfl
  have hs0 : (igzip_wrapper_init L (zlib_ipp_wrapper_init L (lz4_ipp_wrapper_init L
      (World.fresh K m)).1).1).1.g_zstd_wrapper_context.magic = 0 := by
    rw [(igzip_init_spec L _).2.2.1, (zlib_init_spec L _).2.2.1,
      (lz4_init_spec L (World.fresh K m)).2.2.1]; rfl
  rw [hz0] at z4
  rw [hg0] at g4
  rw [hs0] at s4
  have m1 : (W.g_lz4_ipp_wrapper_context.magic = LZ4_IPP_MAGIC ∨
      W.g_lz4_ipp_wrapper_context.magic = 0) ∧
      ((lz4_ipp_wrapper_init L (World.fresh K m)).2 = 0 →
        W.g_lz4_ipp_wrapper_context.magic = LZ4_IPP_MAGIC) := by
    rw [e1]; exact ⟨f1.symm, l5⟩
  have m3 : (W.g_zlib_ipp_wrapper_context.magic = ZLIB_IPP_MAGIC ∨
      W.g_zlib_ipp_wrapper_context.magic = 0) ∧
      ((zlib_ipp_wrapper_init L (World.fresh K m)).2 = 0 →
        W.g_zlib_ipp_wrapper_context.magic = ZLIB_IPP_MAGIC) := by
    rw [e3]; exact ⟨z4.symm, fun h => z5 (by rw [← z6 (World.fresh K m)]; exact h)⟩
  have m4 : (W.g_igzip_wrapper_context.magic = IGZIP_MAGIC ∨
      W.g_igzip_wrapper_context.magic = 0) ∧
      ((igzip_wrapper_init L (World.fresh K m)).2 = 0 →
        W.g_igzip_wrapper_context.magic = IGZIP_MAGIC) := by
    rw [e4]; exact ⟨g4.symm, fun h => g5 (by rw [← g6 (World.fresh K m)]; exact h)⟩
  have m5 : (W.g_zstd_wrapper_context.magic = ZSTD_MAGIC ∨
      W.g_zstd_wrapper_context.magic = 0) ∧
      ((zstd_wrapper_init L (World.fresh K m)).2 = 0 →
        W.g_zstd_wrapper_context.magic = ZSTD_MAGIC) := by
    rw [hW]; exact ⟨s4.symm, fun h => s5 (by rw [← s6 (World.fresh K m)]; exact h)⟩
  have hi : i = 0 ∨ i = 1 ∨ i = 2 ∨ i = 3 ∨ i = 4 ∨ 5 ≤ i := by omega
  rcases hi with rfl | rfl | rfl | rfl | rfl | h5
  · exact ⟨Or.inl rfl, fun _ => rfl⟩
  · exact m1
  · exact m1
  · exact m3
  · exact m4
  · obtain ⟨j, rfl⟩ : ∃ j, i = j + 5 := ⟨i - 5, by omega⟩
    exact m5

/-! ## Corrupted headers -/

theorem decompress_rejects (W : World) (ctx : intel_codec_context_t)
    (a b s2 s3 rest dst : List Byte) (sl dl : Int)
    (ha : a.length = 4) (hb : b.length = 4)
    (hbad : 6 ≤ of_le32 b ∨ of_le32 a ≠ to_uint32 (codec_magic W (of_le32 b))) :
    ∃ r, Java_com_intel_compression_jni_IntelCompressionCodecJNI_decompress W ctx
        (a ++ (b ++ (s2 ++ (s3 ++ rest)))) sl dst dl = some r ∧ r.thrown ≠ [] ∧ r.dst = dst := by
  have hrd : rd32 (a ++ (b ++ (s2 ++ (s3 ++ rest)))) off_codec = some (of_le32 b) :=
    rd32_seg1 ha hb
  have hrm : rd32 (a ++ (b ++ (s2 ++ (s3 ++ rest)))) off_magic = some (of_le32 a) :=
    rd32_seg0 ha
  by_cases hc : of_le32 b < 6
  · obtain ⟨desc, f, ht, hf, heq⟩ := decompress_dispatch W ctx _ dst sl dl hrd hc
    have hm : of_le32 a ≠ to_uint32 (codec_magic W (of_le32 b)) := by
      rcases hbad with h | h
      · omega
      · exact h
    rw [heq]
    generalize of_le32 b = c at *
    interval_cases c <;> simp [intel_codec_table] at ht <;> subst ht <;> cases hf <;>
      simp only [codec_magic] at hm
    · simp [raw_wrapper_decompress, hrd, hrm, INTEL_CODEC_RAW, hm]
    · simp [lz4_ipp_wrapper_decompress, hrm, hm]
    · simp [lz4_ipp_wrapper_decompress, hrm, hm]
    · simp [zlib_ipp_wrapper_decompress, hrm, hm]
    · simp [igzip_wrapper_decompress, hrm, hm]
    · simp [zstd_wrapper_decompress, hrm, hm]
  · unfold Java_com_intel_compression_jni_IntelCompressionCodecJNI_decompress
    rw [hrd]
    simp only [Option.bind_eq_bind, Option.some_bind, intel_codec_table, List.length_cons,
      List.length_nil]
    rw [if_neg (by simpa using hc)]
    exact ⟨_, rfl, by simp, rfl⟩

theorem flip_bit_append (p t : List Byte) (k : Nat) (hk : k < 8 * p.length) :
    flip_bit (p ++ t) k = flip_bit p k ++ t := by
  induction p generalizing k with
  | nil => simp at hk
  | cons b bs ih =>
    simp only [List.cons_append, flip_bit]
    split
    · rfl
    · have h := ih (k - 8) (by simp at hk; omega)
      show b :: flip_bit (bs ++ t) (k - 8) = _
      rw [h]
      rfl

theorem length_flip_bit (p : List Byte) (k : Nat) : (flip_bit p k).length = p.length := by
  induction p generalizing k with
  | nil => rfl
  | cons b bs ih =>
    simp only [flip_bit]
    split
    · rfl
    · simp [ih]

/-- Every single-bit flip in the first eight bytes of a header written by registry
entry `i` yields a codec word outside the table, or a magic word that is neither 0
nor the family constant of the entry it now names. -/
theorem flipped_header_mismatch :
    ∀ i < 6, ∀ k < 64,
      6 ≤ of_le32 ((flip_bit (le32 (to_uint32 (family_magic i)) ++ le32 i) k).drop 4) ∨
      (of_le32 ((flip_bit (le32 (to_uint32 (family_magic i)) ++ le32 i) k).take 4) ≠
          to_uint32 (family_magic
            (of_le32 ((flip_bit (le32 (to_uint32 (family_magic i)) ++ le32 i) k).drop 4))) ∧
        of_le32 ((flip_bit (le32 (to_uint32 (family_magic i)) ++ le32 i) k).take 4) ≠ 0) := by
  decide

theorem produced_header {L : DynamicLinker} {K : ExternalConstants} {m : Bool}
    {ctx : intel_codec_context_t} {src dst : List Byte} {sl dl : Int} {r : JniResult} {i : Nat}
    (hi : i ≤ 5) (hctx : ctx.codec = i)
    (hinit : library_init_status L (World.fresh K m) i = 0)
    (h : Java_com_intel_compression_jni_IntelCompressionCodecJNI_compress
      (Java_com_intel_compression_jni_IntelCompressionCodecJNI_init L (World.fresh K m)).world
      ctx src sl dst dl = some r) :
    ∃ j t, j < 6 ∧ r.dst = (le32 (to_uint32 (family_magic j)) ++ le32 j) ++ t := by
  have htn : ctx.codec.toNat = i := by omega
  obtain ⟨cr, hpost, hcase⟩ := compress_dispatch_post (by omega) (by omega) h
  rw [htn] at hpost hcase
  rcases hcase with ⟨_, rfl⟩ | ⟨_, r2, hpost2, _, rfl⟩
  · obtain ⟨_, _, w, payload, hd, _, _⟩ := hpost
    refine ⟨i, w ++ (le32 (to_uint32 sl) ++ payload), by omega, ?_⟩
    rw [hd, ((init_magics L K m i).2 hinit)]
    simp
  · obtain ⟨_, _, w, payload, hd, _, _⟩ := hpost2
    refine ⟨0, w ++ (le32 (to_uint32 sl) ++ payload), by omega, ?_⟩
    rw [hd]
    simp [codec_magic, family_magic]

/-! ## Lookup by name -/

theorem strncmp_eq_zero_iff (t : List Byte) (ht : ∀ b ∈ t, b ≠ 0) (s : List Byte) :
    strncmp s t t.length = 0 ↔ ∃ rest, s = t ++ rest := by
  induction t generalizing s with
  | nil => simp [strncmp]
  | cons b bs ih =>
    have hb : b ≠ 0 := ht b (List.mem_cons_self _ _)
    have hbs : ∀ c ∈ bs, c ≠ 0 := fun c hc => ht c (List.mem_cons_of_mem _ hc)
    cases s with
    | nil =>
      simp only [List.length_cons, strncmp, List.headD_nil, List.headD_cons]
      have : (0 : Byte) ≠ b := fun h => hb h.symm
      simp [this]
      intro h
      apply hb
      apply Fin.ext
      have := b.isLt
      simp at h ⊢
      omega
    | cons a as =>
      simp only [List.length_cons, strncmp, List.headD_cons, List.tail_cons]
      by_cases hab : a = b
      · subst hab
        simp [hb, ih hbs as]
      · simp only [ne_eq, hab, not_false_eq_true, ↓reduceIte, List.cons_append, List.cons.injEq,
          false_and, exists_false, iff_false]
        intro h
        apply hab
        apply Fin.ext
        omega

theorem find_codec_spec (s : List Byte) (ds : List intel_codec_desc_t) (base : Nat) :
    base ≤ find_codec s base ds ∧ find_codec s base ds ≤ base + ds.length ∧
    (∀ j d, j < find_codec s base ds - base → ds[j]? = some d →
      strncmp s (c_str d.name) (strlen (c_str d.name)) ≠ 0) ∧
    (find_codec s base ds < base + ds.length →
      ∃ d, ds[find_codec s base ds - base]? = some d ∧
        strncmp s (c_str d.name) (strlen (c_str d.name)) = 0) := by
  induction ds generalizing base with
  | nil => simp [find_codec]
  | cons d ds ih =>
    unfold find_codec
    split
    · rename_i h
      refine ⟨le_refl _, by omega, ?_, ?_⟩
      · intro j d2 hj; omega
      · intro _; exact ⟨d, by simp, h⟩
    · rename_i h
      obtain ⟨h1, h2, h3, h4⟩ := ih (base + 1)
      refine ⟨by omega, by simp; omega, ?_, ?_⟩
      · intro j d2 hj hd
        cases j with
        | zero => simp at hd; subst hd; exact h
        | succ j =>
          simp at hd
          exact h3 j d2 (by omega) hd
      · intro hlt
        obtain ⟨d2, hd2, hm⟩ := h4 (by simp at hlt; omega)
        refine ⟨d2, ?_, hm⟩
        have : find_codec s (base + 1) ds - base = (find_codec s (base + 1) ds - (base + 1)) + 1 := by
          omega
        rw [this]
        simpa using hd2

set_option maxRecDepth 8000 in
theorem table_names_nonzero :
    ∀ d ∈ intel_codec_table, ∀ b ∈ c_str d.name, b ≠ 0 := by
  intro d hd
  simp only [intel_codec_table, List.mem_cons, List.mem_singleton, List.not_mem_nil,
    or_false] at hd
  rcases hd with rfl | rfl | rfl | rfl | rfl | rfl <;> decide

theorem find_codec_first (s : List Byte) (i : Nat) (d : intel_codec_desc_t)
    (hi1 : 1 ≤ i) (hd : intel_codec_table[i]? = some d)
    (hpre : ∃ rest, s = c_str d.name ++ rest)
    (hfirst : ∀ j e, 1 ≤ j → j < i → intel_codec_table[j]? = some e →
      ¬ ∃ rest, s = c_str e.name ++ rest) :
    find_codec s 1 (intel_codec_table.drop 1) = i := by
  obtain ⟨h1, h2, h3, h4⟩ := find_codec_spec s (intel_codec_table.drop 1) 1
  have hlen : (intel_codec_table.drop 1).length = 5 := rfl
  have hi6 : i < 6 := by
    by_contra hn
    have : intel_codec_table[i]? = none :=
      List.getElem?_eq_none (by simp [intel_codec_table]; omega)
    rw [this] at hd; cases hd
  have hdrop : ∀ j, (intel_codec_table.drop 1)[j]? = intel_codec_table[j + 1]? := by
    intro j; rw [List.getElem?_drop]; congr 1; omega
  generalize find_codec s 1 (intel_codec_table.drop 1) = k at *
  rw [hlen] at h2 h4
  rcases Nat.lt_trichotomy k i with hlt | heq | hgt
  · exfalso
    obtain ⟨e, he, hm⟩ := h4 (by omega)
    rw [hdrop, show k - 1 + 1 = k by omega] at he
    have hmem : e ∈ intel_codec_table := List.getElem?_mem he
    have := (strncmp_eq_zero_iff (c_str e.name) (table_names_nonzero e hmem) s).mp hm
    exact hfirst k e h1 hlt he this
  · exact heq
  · exfalso
    have hmem : d ∈ intel_codec_table := List.getElem?_mem hd
    have hd' : (intel_codec_table.drop 1)[i - 1]? = some d := by
      rw [hdrop, show i - 1 + 1 = i by omega]; exact hd
    exact h3 (i - 1) d (by omega) hd'
      ((strncmp_eq_zero_iff (c_str d.name) (table_names_nonzero d hmem) s).mpr hpre)

theorem find_codec_none (s : List Byte)
    (hno : ∀ j e, 1 ≤ j → intel_codec_table[j]? = some e → ¬ ∃ rest, s = c_str e.name ++ rest) :
    find_codec s 1 (intel_codec_table.drop 1) = 6 := by
  obtain ⟨h1, h2, h3, h4⟩ := find_codec_spec s (intel_codec_table.drop 1) 1
  have hlen : (intel_codec_table.drop 1).length = 5 := rfl
  have hdrop : ∀ j, (intel_codec_table.drop 1)[j]? = intel_codec_table[j + 1]? := by
    intro j; rw [List.getElem?_drop]; congr 1; omega
  generalize find_codec s 1 (intel_codec_table.drop 1) = k at *
  rw [hlen] at h2 h4
  by_contra hk
  obtain ⟨e, he, hm⟩ := h4 (by omega)
  rw [hdrop, show k - 1 + 1 = k by omega] at he
  have hmem : e ∈ intel_codec_table := List.getElem?_mem he
  exact hno k e h1 he
    ((strncmp_eq_zero_iff (c_str e.name) (table_names_nonzero e hmem) s).mp hm)

theorem create_of_find (s : List Byte) (level : Int) (i : Nat)
    (hf : find_codec s 1 (intel_codec_table.drop 1) = i) (hi : i < 6) :
    Java_com_intel_compression_jni_IntelCompressionCodecJNI_createCompressContext true s level =
      ⟨some ⟨i, level⟩, [], none⟩ := by
  unfold Java_com_intel_compression_jni_IntelCompressionCodecJNI_createCompressContext
  have hlen : intel_codec_table.length = 6 := rfl
  simp only [hf, hlen]
  rw [if_neg (by simp), if_pos hi, if_neg (by omega)]

theorem create_default (s : List Byte) (level : Int)
    (hf : find_codec s 1 (intel_codec_table.drop 1) = 6) :
    Java_com_intel_compression_jni_IntelCompressionCodecJNI_createCompressContext true s level =
      ⟨some ⟨1, level⟩, [], some "lz4-ipp"⟩ := by
  unfold Java_com_intel_compression_jni_IntelCompressionCodecJNI_createCompressContext
  have hlen : intel_codec_table.length = 6 := rfl
  simp only [hf, hlen]
  rw [if_neg (by simp)]
  rfl

set_option maxRecDepth 8000 in
theorem exact_name_index (i : Nat) (d : intel_codec_desc_t) (hi1 : 1 ≤ i)
    (hd : intel_codec_table[i]? = some d) :
    find_codec (c_str d.name) 1 (intel_codec_table.drop 1) = i := by
  have hi6 : i < 6 := by
    by_contra hn
    have : intel_codec_table[i]? = none :=
      List.getElem?_eq_none (by simp [intel_codec_table]; omega)
    rw [this] at hd; cases hd
  interval_cases i <;> simp [intel_codec_table] at hd <;> subst hd <;> decide

theorem no_match_of_strncmp (s : List Byte)
    (h : ∀ e ∈ intel_codec_table, strncmp s (c_str e.name) (strlen (c_str e.name)) ≠ 0) :
    ∀ (j : Nat) (e : intel_codec_desc_t), intel_codec_table[j]? = some e →
      ¬ ∃ rest, s = c_str e.name ++ rest := by
  intro j e he hex
  have hmem : e ∈ intel_codec_table := List.getElem?_mem he
  exact h e hmem ((strncmp_eq_zero_iff (c_str e.name) (table_names_nonzero e hmem) s).mpr hex)

theorem lz4_ipp_wrapper_compress_hc_eq {W : World} {ctx : intel_codec_context_t}
    {src dst : List Byte} {n dl : Nat} {f : dlsym_LZ4_IPP_compress_hc} {out : LibWrite}
    (hf : W.g_lz4_ipp_wrapper_context.compress_hc = some f)
    (ho : f src (to_int32 n) (to_int32 dl) ctx.level = out)
    (hr : to_int32 out.ret ≠ 0) (hcap : 16 + out.bytes.length ≤ dst.length) :
    lz4_ipp_wrapper_compress_hc W ctx src n dst dl =
      some ⟨frame_bytes (to_uint32 W.g_lz4_ipp_wrapper_context.magic) INTEL_CODEC_LZ4_HC_IPP
          (to_uint32 (out.ret + 16)) n out.bytes ++ dst.drop (16 + out.bytes.length),
        to_uint32 (out.ret + 16), 0⟩ := by
  obtain ⟨s0, s1, s2, s3, rest, rfl, h0, h1, h2, h3⟩ := exists_segments (by omega : 16 ≤ dst.length)
  have hb : out.bytes.length ≤ rest.length := by
    simp [h0, h1, h2, h3] at hcap; omega
  unfold lz4_ipp_wrapper_compress_hc
  rw [← List.drop_drop, drop_payload h0 h1 h2 h3]
  simp [hf, ho, hb, hr, off_magic, off_codec, off_uncompressed_size, off_compressed_size,
    sizeof_header, wr32_seg0, wr32_seg1, wr32_seg2, wr32_seg3, store_payload,
    h0, h1, h2, h3, frame_bytes, to_uint32_size_t, to_uint32_int32_add]

theorem zlib_ipp_wrapper_compress_eq {W : World} {ctx : intel_codec_context_t}
    {src dst : List Byte} {n dl : Nat} {f : dlsym_compress2} {out : ZlibWrite}
    (hf : W.g_zlib_ipp_wrapper_context.compress = some f)
    (ho : f (to_size_t ((dl : Int) - 16)) src n ctx.level = out)
    (hr : to_int32 out.ret = W.consts.Z_OK) (hcap : 16 + out.bytes.length ≤ dst.length) :
    zlib_ipp_wrapper_compress W ctx src n dst dl =
      some ⟨frame_bytes (to_uint32 W.g_zlib_ipp_wrapper_context.magic) INTEL_CODEC_ZLIB_IPP
          (to_uint32 ((out.destLen : Int) + 16)) n out.bytes ++
            dst.drop (16 + out.bytes.length),
        to_uint32 ((out.destLen : Int) + 16), 0⟩ := by
  obtain ⟨s0, s1, s2, s3, rest, rfl, h0, h1, h2, h3⟩ := exists_segments (by omega : 16 ≤ dst.length)
  have hb : out.bytes.length ≤ rest.length := by
    simp [h0, h1, h2, h3] at hcap; omega
  unfold zlib_ipp_wrapper_compress
  rw [← List.drop_drop, drop_payload h0 h1 h2 h3]
  simp [hf, ho, hb, hr, off_magic, off_codec, off_uncompressed_size, off_compressed_size,
    sizeof_header, wr32_seg0, wr32_seg1, wr32_seg2, wr32_seg3, store_payload,
    h0, h1, h2, h3, frame_bytes, to_uint32_size_t]

theorem zstd_wrapper_compress_eq {W : World} {ctx : intel_codec_context_t}
    {src dst : List Byte} {n dl : Nat} {f : dlsym_ZSTD_compress} {e : dlsym_ZSTD_isError}
    {out : LibWrite}
    (hf : W.g_zstd_wrapper_context.compress = some f)
    (he : W.g_zstd_wrapper_context.isError = some e)
    (ho : f (to_size_t (to_int32 dl)) src n ctx.level = out)
    (hok : e (to_size_t (to_int32 out.ret)) = 0) (hcap : 16 + out.bytes.length ≤ dst.length) :
    zstd_wrapper_compress W ctx src n dst dl =
      some ⟨frame_bytes (to_uint32 W.g_zstd_wrapper_context.magic) INTEL_CODEC_ZSTD
          (to_uint32 (out.ret + 16)) n out.bytes ++ dst.drop (16 + out.bytes.length),
        to_uint32 (out.ret + 16), 0⟩ := by
  obtain ⟨s0, s1, s2, s3, rest, rfl, h0, h1, h2, h3⟩ := exists_segments (by omega : 16 ≤ dst.length)
  have hb : out.bytes.length ≤ rest.length := by
    simp [h0, h1, h2, h3] at hcap; omega
  unfold zstd_wrapper_compress
  rw [← List.drop_drop, drop_payload h0 h1 h2 h3]
  simp [hf, he, ho, hb, hok, off_magic, off_codec, off_uncompressed_size, off_compressed_size,
    sizeof_header, wr32_seg0, wr32_seg1, wr32_seg2, wr32_seg3, store_payload,
    h0, h1, h2, h3, frame_bytes, to_uint32_size_t, to_uint32_int32_add]

theorem igzip_wrapper_compress_eq {W : World} {ctx : intel_codec_context_t}
    {src dst : List Byte} {n dl : Nat} {init : dlsym_isal_deflate_stateless_init}
    {f : dlsym_isal_deflate_stateless} {out : DeflateWrite}
    (hi : W.g_igzip_wrapper_context.isal_deflate_stateless_init_func = some init)
    (hf : W.g_igzip_wrapper_context.isal_deflate_stateless_func = some f)
    (ho : f (igzip_deflate_stream W ctx src n dl init) = out)
    (hr : to_int32 out.ret = W.consts.COMP_OK) (ha : out.stream.avail_in = 0)
    (hcap : 16 + out.bytes.length ≤ dst.length) :
    igzip_wrapper_compress W ctx src n dst dl =
      some ⟨frame_bytes (to_uint32 W.g_igzip_wrapper_context.magic) INTEL_CODEC_IGZIP
          (to_uint32 ((out.stream.total_out : Int) + 16)) n out.bytes ++
            dst.drop (16 + out.bytes.length),
        to_uint32 ((out.stream.total_out : Int) + 16), 0⟩ := by
  obtain ⟨s0, s1, s2, s3, rest, rfl, h0, h1, h2, h3⟩ := exists_segments (by omega : 16 ≤ dst.length)
  have hb : out.bytes.length ≤ rest.length := by
    simp [h0, h1, h2, h3] at hcap; omega
  unfold igzip_deflate_stream at ho
  unfold igzip_wrapper_compress
  rw [← List.drop_drop, drop_payload h0 h1 h2 h3]
  simp only [hi, hf, Option.bind_eq_bind, Option.some_bind, ho]
  simp [hb, hr, ha, off_magic, off_codec, off_uncompressed_size, off_compressed_size,
    sizeof_header, wr32_seg0, wr32_seg1, wr32_seg2, wr32_seg3, store_payload,
    h0, h1, h2, h3, frame_bytes, to_uint32_size_t]

theorem lz4_ipp_wrapper_decompress_eq {W : World} {ctx : intel_codec_context_t}
    {src dst : List Byte} {sl dl csz usz : Nat} {g : dlsym_LZ4_IPP_decompress} {out : LibWrite}
    (hm : rd32 src off_magic = some (to_uint32 W.g_lz4_ipp_wrapper_context.magic))
    (hcs : rd32 src off_compressed_size = some csz)
    (hus : rd32 src off_uncompressed_size = some usz)
    (hg : W.g_lz4_ipp_wrapper_context.decompress = some g)
    (ho : g (src.drop sizeof_header) (to_int32 (to_size_t ((csz : Int) - sizeof_header)))
      (to_int32 dl) = out)
    (hsz : to_uint32 (to_int32 out.ret) = usz) (hcap : out.bytes.length ≤ dst.length) :
    lz4_ipp_wrapper_decompress W ctx src sl dst dl =
      some ⟨out.bytes ++ dst.drop out.bytes.length, usz, 0⟩ := by
  unfold lz4_ipp_wrapper_decompress
  simp [hm, hcs, hus, hg, ho, hsz, store_zero, hcap]

theorem zlib_ipp_wrapper_decompress_eq {W : World} {ctx : intel_codec_context_t}
    {src dst : List Byte} {sl dl csz usz : Nat} {g : dlsym_uncompress} {out : ZlibWrite}
    (hm : rd32 src off_magic = some (to_uint32 W.g_zlib_ipp_wrapper_context.magic))
    (hcs : rd32 src off_compressed_size = some csz)
    (hus : rd32 src off_uncompressed_size = some usz)
    (hg : W.g_zlib_ipp_wrapper_context.decompress = some g)
    (ho : g dl (src.drop sizeof_header) (to_size_t ((csz : Int) - sizeof_header)) = out)
    (hr : to_int32 out.ret = W.consts.Z_OK)
    (hsz : out.destLen = usz) (hu32 : usz < 4294967296)
    (hcap : out.bytes.length ≤ dst.length) :
    zlib_ipp_wrapper_decompress W ctx src sl dst dl =
      some ⟨out.bytes ++ dst.drop out.bytes.length, usz, 0⟩ := by
  unfold zlib_ipp_wrapper_decompress
  simp [hm, hcs, hus, hg, ho, hsz, hr, store_zero, hcap, to_uint32_of_lt hu32]

theorem igzip_wrapper_decompress_eq {W : World} {ctx : intel_codec_context_t}
    {src dst : List Byte} {sl dl csz usz : Nat} {init : dlsym_isal_inflate_init}
    {g : dlsym_isal_inflate_stateless} {out : InflateWrite}
    (hm : rd32 src off_magic = some (to_uint32 W.g_igzip_wrapper_context.magic))
    (hcs : rd32 src off_compressed_size = some csz)
    (hus : rd32 src off_uncompressed_size = some usz)
    (hi : W.g_igzip_wrapper_context.isal_inflate_init_func = some init)
    (hg : W.g_igzip_wrapper_context.isal_inflate_stateless_func = some g)
    (ho : g { init () with
      next_in := src.drop sizeof_header
      avail_in := to_uint32 (to_size_t ((csz : Int) - sizeof_header))
      avail_out := dl } = out)
    (hr : to_int32 out.ret = W.consts.ISAL_DECOMP_OK)
    (hsz : out.state.total_out = usz) (hcap : out.bytes.length ≤ dst.length) :
    igzip_wrapper_decompress W ctx src sl dst dl =
      some ⟨out.bytes ++ dst.drop out.bytes.length, usz, 0⟩ := by
  unfold igzip_wrapper_decompress
  simp only [hm, hcs, hus, hi, hg, Option.bind_eq_bind, Option.some_bind, ho]
  simp [hsz, hr, store_zero, hcap]

theorem zstd_wrapper_decompress_eq {W : World} {ctx : intel_codec_context_t}
    {src dst : List Byte} {sl dl csz usz : Nat} {g : dlsym_ZSTD_decompress}
    {e : dlsym_ZSTD_isError} {out : LibWrite}
    (hm : rd32 src off_magic = some (to_uint32 W.g_zstd_wrapper_context.magic))
    (hcs : rd32 src off_compressed_size = some csz)
    (hus : rd32 src off_uncompressed_size = some usz)
    (hg : W.g_zstd_wrapper_context.decompress = some g)
    (he : W.g_zstd_wrapper_context.isError = some e)
    (ho : g (to_size_t (to_int32 dl)) (src.drop sizeof_header)
      (to_size_t ((csz : Int) - sizeof_header)) = out)
    (hsz : to_uint32 (to_int32 out.ret) = usz)
    (hok : e (to_size_t (to_int32 out.ret)) = 0)
    (hcap : out.bytes.length ≤ dst.length) :
    zstd_wrapper_decompress W ctx src sl dst dl =
      some ⟨out.bytes ++ dst.drop out.bytes.length, usz, 0⟩ := by
  unfold zstd_wrapper_decompress
  simp [hm, hcs, hus, hg, he, ho, hsz, hok, store_zero, hcap]

theorem frame_fields (m c cs us : Nat) (p : List Byte) (hm : m < 4294967296)
    (hc : c < 4294967296) (hcs : cs < 4294967296) (hus : us < 4294967296) :
    rd32 (frame_bytes m c cs us p) off_magic = some m ∧
    rd32 (frame_bytes m c cs us p) off_codec = some c ∧
    rd32 (frame_bytes m c cs us p) off_compressed_size = some cs ∧
    rd32 (frame_bytes m c cs us p) off_uncompressed_size = some us ∧
    (frame_bytes m c cs us p).drop sizeof_header = p := by
  have h := rd32_frame_bytes m c cs us p [] hm hc hcs hus
  rw [List.append_nil] at h
  refine ⟨h.1, h.2.1, h.2.2.1, h.2.2.2.1, ?_⟩
  unfold frame_bytes sizeof_header
  exact drop_payload (length_le32 _) (length_le32 _) (length_le32 _) (length_le32 _)

theorem rd32_frame_codec (m c cs us : Nat) (p : List Byte) (hc : c < 4294967296) :
    rd32 (frame_bytes m c cs us p) off_codec = some c := by
  unfold frame_bytes off_codec
  rw [rd32_seg1 (length_le32 _) (length_le32 _), of_le32_le32 hc]

theorem to_uint32_add_16 {p : Nat} (h : p + 16 < 4294967296) :
    to_uint32 ((p : Int) + 16) = p + 16 := by
  unfold to_uint32; omega

theorem round_trip_of_capabilities {W : World} {ctx2 : intel_codec_context_t} {level : Int}
    {i mg : Nat} {src x payload dst dst2 : List Byte} {destLen destLen2 : Int}
    {desc : intel_codec_desc_t} {fc : compress_func} {fd : decompress_func}
    (hi : i ≤ 5) (ht : intel_codec_table[i]? = some desc)
    (hfc : desc.compress = some fc) (hfd : desc.decompress = some fd)
    (hx : x.length < 2147483648)
    (hc : fc W ⟨i, level⟩ src x.length dst (to_uint32 destLen) =
      some ⟨frame_bytes mg i (payload.length + 16) x.length payload ++
        dst.drop (16 + payload.length), payload.length + 16, 0⟩)
    (hd : ∀ sl, fd W ctx2 (frame_bytes mg i (payload.length + 16) x.length payload) sl dst2
        (to_uint32 destLen2) = some ⟨x ++ dst2.drop x.length, x.length, 0⟩) :
    ∃ r, Java_com_intel_compression_jni_IntelCompressionCodecJNI_compress W ⟨i, level⟩
          src x.length dst destLen = some r ∧
      r.thrown = [] ∧ r.invoked = [i] ∧
      r.ret = to_int32 ((payload.length : Int) + 16) ∧
      r.dst.take (16 + payload.length) =
        frame_bytes mg i (payload.length + 16) x.length payload ∧
      ∃ r2, Java_com_intel_compression_jni_IntelCompressionCodecJNI_decompress W ctx2
            (r.dst.take (16 + payload.length)) r.ret dst2 destLen2 = some r2 ∧
        r2.thrown = [] ∧ r2.invoked = [i] ∧ r2.ret = x.length ∧ r2.dst.take x.length = x := by
  obtain ⟨desc1, f1, ht1, hf1, he1⟩ := compress_dispatch W ⟨i, level⟩ src dst x.length destLen
    (by show (0 : Int) ≤ (i : Int); omega) (by show (i : Int) ≤ 5; omega)
  have htn : (⟨i, level⟩ : intel_codec_context_t).codec.toNat = i := by simp
  rw [htn] at ht1 he1
  rw [ht] at ht1
  cases ht1
  rw [hfc] at hf1
  cases hf1
  rw [to_uint32_of_lt (by omega : x.length < 4294967296), hc] at he1
  have htake : (frame_bytes mg i (payload.length + 16) x.length payload ++
      dst.drop (16 + payload.length)).take (16 + payload.length) =
      frame_bytes mg i (payload.length + 16) x.length payload :=
    List.take_left' (by rw [length_frame_bytes]; omega)
  refine ⟨_, he1, rfl, rfl, rfl, htake, ?_⟩
  show ∃ r2, Java_com_intel_compression_jni_IntelCompressionCodecJNI_decompress W ctx2
      ((frame_bytes mg i (payload.length + 16) x.length payload ++
        dst.drop (16 + payload.length)).take (16 + payload.length)) _ dst2 destLen2 = some r2 ∧ _
  rw [htake]
  obtain ⟨desc2, f2, ht2, hf2, he2⟩ := decompress_dispatch W ctx2
    (frame_bytes mg i (payload.length + 16) x.length payload) dst2
    (to_int32 ((payload.length : Int) + 16)) destLen2
    (rd32_frame_codec mg i _ _ payload (by omega)) (by omega)
  rw [ht] at ht2
  cases ht2
  rw [hfd] at hf2
  cases hf2
  rw [hd] at he2
  refine ⟨_, he2, rfl, rfl, ?_, ?_⟩
  · exact to_int32_of_lt hx
  · exact List.take_left' rfl

theorem find_codec_range (s : List Byte) :
    1 ≤ find_codec s 1 (intel_codec_table.drop 1) ∧
      find_codec s 1 (intel_codec_table.drop 1) ≤ 6 := by
  obtain ⟨h1, h2, _, _⟩ := find_codec_spec s (intel_codec_table.drop 1) 1
  have hlen : (intel_codec_table.drop 1).length = 5 := rfl
  rw [hlen] at h2
  exact ⟨h1, h2⟩

theorem create_context_range (malloc_succeeds : Bool) (s : List Byte) (level : Int)
    (ctx : intel_codec_context_t)
    (h : (Java_com_intel_compression_jni_IntelCompressionCodecJNI_createCompressContext
      malloc_succeeds s level).context = some ctx) :
    1 ≤ ctx.codec ∧ ctx.codec ≤ 5 ∧ ctx.level = level := by
  obtain ⟨h1, h6⟩ := find_codec_range s
  cases malloc_succeeds with
  | false =>
    simp [Java_com_intel_compression_jni_IntelCompressionCodecJNI_createCompressContext] at h
  | true =>
    by_cases h5 : find_codec s 1 (intel_codec_table.drop 1) = 6
    · rw [create_default s level h5] at h
      cases h
      exact ⟨by show (1 : Int) ≤ 1; decide, by show (1 : Int) ≤ 5; decide, rfl⟩
    · rw [create_of_find s level _ rfl (by omega)] at h
      cases h
      have a1 : (1 : Int) ≤ (find_codec s 1 (intel_codec_table.drop 1) : Nat) := by omega
      have a2 : ((find_codec s 1 (intel_codec_table.drop 1) : Nat) : Int) ≤ 5 := by omega
      exact ⟨a1, a2, rfl⟩

theorem to_size_t_sub_header {p : Nat} (h : p + 16 < 4294967296) :
    to_size_t (((p + 16 : Nat) : Int) - sizeof_header) = p := by
  unfold to_size_t sizeof_header; omega

theorem to_size_t_int32_of_lt {p : Nat} (h : p < 2147483648) :
    to_size_t (to_int32 (p : Int)) = p := by
  rw [to_int32_of_lt h]; unfold to_size_t; omega

theorem not_prefix_of_strncmp (s : List Byte) (e : intel_codec_desc_t)
    (he : e ∈ intel_codec_table)
    (h : strncmp s (c_str e.name) (strlen (c_str e.name)) ≠ 0) :
    ¬ ∃ rest, s = c_str e.name ++ rest :=
  fun hex => h ((strncmp_eq_zero_iff (c_str e.name) (table_names_nonzero e he) s).mpr hex)

theorem to_size_t_sub_16 {d : Nat} (h16 : 16 ≤ d) (h : d < 2147483648) :
    to_size_t ((d : Int) - 16) = d - 16 := by
  unfold to_size_t; omega

theorem to_int32_ne_zero {p : Nat} (h0 : 0 < p) (h : p < 2147483648) :
    to_int32 (p : Int) ≠ 0 := by
  rw [to_int32_of_lt h]; omega

theorem to_uint32_int32_of_lt {p : Nat} (h : p < 2147483648) :
    to_uint32 (to_int32 (p : Int)) = p := by
  rw [to_int32_of_lt h, to_uint32_of_lt (by omega)]

/-! ## Round trip through a library -/

/-- Round trip for the library-backed codecs when the destination region holds the
frame. For a registry index `i` in 1..5
whose library was resolved by `init` (status 0), every level, every input `x` and a
capacity `destLen` (a `jint`) of at least `len x + 16`, assume that the compress
routine of the library stores `payload`, reports success and `len payload`, within
the capacity it is passed, and that its decompress routine, given exactly the bytes
of `payload` and their number, stores `x` and reports `len x`. When the destination
region holds the 16 header bytes and `payload`, the compress dispatcher raises
nothing, calls entry `i` only and leaves the frame with the magic of the family of
`i`, codec `i`, compressed_size `len payload + 16`, uncompressed_size `len x` and
`payload`; the decompress dispatcher on that frame, with any context and a
destination of capacity at least `len x`, raises nothing, calls entry `i` only,
returns `len x` and leaves exactly `x` in the destination. -/
theorem library_round_trip (L : DynamicLinker) (K : ExternalConstants) (m : Bool) (W : World)
    (i : Nat) (level : Int) (ctx2 : intel_codec_context_t)
    (x tail payload dst dst2 : List Byte) (destLen destLen2 : Int)
    (hW : W = (Java_com_intel_compression_jni_IntelCompressionCodecJNI_init L
      (World.fresh K m)).world)
    (hi1 : 1 ≤ i) (hi5 : i ≤ 5)
    (hinit : library_init_status L (World.fresh K m) i = 0)
    (hcap : (x.length : Int) + 16 ≤ destLen) (hjint : destLen < 2147483648)
    (hregion : 16 + payload.length ≤ dst.length)
    (hcap2 : (x.length : Int) ≤ destLen2) (hmem2 : destLen2 ≤ dst2.length)
    (hcomp : library_compresses W i ⟨i, level⟩ (x ++ tail) x.length (to_uint32 destLen) payload)
    (hdecomp : library_decompresses W i payload (to_uint32 destLen2) x) :
    ∃ r, Java_com_intel_compression_jni_IntelCompressionCodecJNI_compress W ⟨i, level⟩
          (x ++ tail) x.length dst destLen = some r ∧
      r.thrown = [] ∧ r.invoked = [i] ∧
      r.ret = to_int32 ((payload.length : Int) + 16) ∧
      r.dst.take (16 + payload.length) =
        frame_bytes (to_uint32 (family_magic i)) i (payload.length + 16) x.length payload ∧
      ∃ r2, Java_com_intel_compression_jni_IntelCompressionCodecJNI_decompress W ctx2
            (r.dst.take (16 + payload.length)) r.ret dst2 destLen2 = some r2 ∧
        r2.thrown = [] ∧ r2.invoked = [i] ∧ r2.ret = x.length ∧ r2.dst.take x.length = x := by
  have hmg : codec_magic W i = family_magic i := by
    subst hW; exact (init_magics L K m i).2 hinit
  have hx : x.length < 2147483648 := by omega
  have hx32 : x.length < 4294967296 := by omega
  have hx2 : x.length ≤ dst2.length := by omega
  obtain ⟨dl, rfl⟩ : ∃ dl : Nat, destLen = dl := ⟨destLen.toNat, by omega⟩
  have h16 : 16 ≤ dl := by omega
  have hlt : dl < 2147483648 := by omega
  have hlt32 : dl < 4294967296 := by omega
  have hlt16 : dl - 16 < 4294967296 := by omega
  have hcases : i = 1 ∨ i = 2 ∨ i = 3 ∨ i = 4 ∨ i = 5 := by omega
  clear hcap hjint hcap2 hmem2 hi1 hi5 hinit hW
  rw [← hmg]
  rw [to_uint32_of_lt hlt32] at hcomp
  rcases hcases with rfl | rfl | rfl | rfl | rfl
  · obtain ⟨f, hf, ho, hpos, hle⟩ := hcomp
    obtain ⟨g, hg, hgo⟩ := hdecomp
    rw [to_int32_of_lt hlt] at hle
    have hp31 : payload.length < 2147483648 := by omega
    have hp : payload.length + 16 < 4294967296 := by omega
    clear hle
    have hc := @lz4_ipp_wrapper_compress_eq W ⟨1, level⟩ _ dst _ _ f _ hf ho
      (to_int32_ne_zero hpos hp31) hregion
    simp only [to_uint32_add_16 hp] at hc
    obtain ⟨hm, _, hcs, hus, hdrop⟩ := frame_fields
      (to_uint32 (codec_magic W 1)) 1 (payload.length + 16) x.length payload
      (to_uint32_lt _) (by decide) hp hx32
    refine round_trip_of_capabilities (by decide) (by rfl) rfl rfl hx
      (by rw [to_uint32_of_lt hlt32]; exact hc) ?_
    intro sl
    exact @lz4_ipp_wrapper_decompress_eq W ctx2 _ dst2 sl _ _ _ g ⟨x, x.length⟩ hm hcs hus hg
      (by rw [hdrop, to_size_t_sub_header hp, to_int32_of_lt hp31]; exact hgo)
      (to_uint32_int32_of_lt hx) hx2
  · obtain ⟨f, hf, ho, hpos, hle⟩ := hcomp
    obtain ⟨g, hg, hgo⟩ := hdecomp
    rw [to_int32_of_lt hlt] at hle
    have hp31 : payload.length < 2147483648 := by omega
    have hp : payload.length + 16 < 4294967296 := by omega
    clear hle
    have hc := @lz4_ipp_wrapper_compress_hc_eq W ⟨2, level⟩ _ dst _ _ f _ hf ho
      (to_int32_ne_zero hpos hp31) hregion
    simp only [to_uint32_add_16 hp] at hc
    obtain ⟨hm, _, hcs, hus, hdrop⟩ := frame_fields
      (to_uint32 (codec_magic W 2)) 2 (payload.length + 16) x.length payload
      (to_uint32_lt _) (by decide) hp hx32
    refine round_trip_of_capabilities (by decide) (by rfl) rfl rfl hx
      (by rw [to_uint32_of_lt hlt32]; exact hc) ?_
    intro sl
    exact @lz4_ipp_wrapper_decompress_eq W ctx2 _ dst2 sl _ _ _ g ⟨x, x.length⟩ hm hcs hus hg
      (by rw [hdrop, to_size_t_sub_header hp, to_int32_of_lt hp31]; exact hgo)
      (to_uint32_int32_of_lt hx) hx2
  · obtain ⟨f, hf, hb, hdest, hr, hle⟩ := hcomp
    obtain ⟨g, hg, hbx, hdx, hrx⟩ := hdecomp
    rw [to_size_t_sub_16 h16 hlt] at hle
    have hp : payload.length + 16 < 4294967296 := by omega
    clear hle
    have hc := @zlib_ipp_wrapper_compress_eq W ⟨3, level⟩ (x ++ tail) dst x.length dl f _ hf rfl
      hr (by rw [hb]; exact hregion)
    rw [hb, hdest, to_uint32_add_16 hp] at hc
    obtain ⟨hm, _, hcs, hus, hdrop⟩ := frame_fields
      (to_uint32 (codec_magic W 3)) 3 (payload.length + 16) x.length payload
      (to_uint32_lt _) (by decide) hp hx32
    refine round_trip_of_capabilities (by decide) (by rfl) rfl rfl hx
      (by rw [to_uint32_of_lt hlt32]; exact hc) ?_
    intro sl
    have hd := @zlib_ipp_wrapper_decompress_eq W ctx2 _ dst2 sl (to_uint32 destLen2) _ _ g
      (g (to_uint32 destLen2) payload payload.length) hm hcs hus hg
      (by rw [hdrop, to_size_t_sub_header hp]) hrx hdx hx32 (by rw [hbx]; exact hx2)
    rw [hbx] at hd
    exact hd
  · obtain ⟨init, f, hi, hf, hb, hr, ha, htot, hle⟩ := hcomp
    obtain ⟨init2, g, hi2, hg, hbx, hrx, hdx⟩ := hdecomp
    have hav : (igzip_deflate_stream W ⟨((4 : Nat) : Int), level⟩ (x ++ tail) x.length dl init).avail_out =
        to_uint32 (to_size_t ((dl : Int) - 16)) := rfl
    rw [hav, to_size_t_sub_16 h16 hlt, to_uint32_of_lt hlt16] at hle
    have hp : payload.length + 16 < 4294967296 := by omega
    have hp32 : payload.length < 4294967296 := by omega
    clear hle hav
    have hc := @igzip_wrapper_compress_eq W ⟨((4 : Nat) : Int), level⟩ (x ++ tail) dst x.length dl init f _ hi hf
      rfl hr ha (by rw [hb]; exact hregion)
    rw [hb, htot, to_uint32_add_16 hp] at hc
    obtain ⟨hm, _, hcs, hus, hdrop⟩ := frame_fields
      (to_uint32 (codec_magic W 4)) 4 (payload.length + 16) x.length payload
      (to_uint32_lt _) (by decide) hp hx32
    refine round_trip_of_capabilities (by decide) (by rfl) rfl rfl hx
      (by rw [to_uint32_of_lt hlt32]; exact hc) ?_
    intro sl
    have hd := @igzip_wrapper_decompress_eq W ctx2 _ dst2 sl (to_uint32 destLen2) _ _ init2 g
      (g { init2 () with
        next_in := payload, avail_in := payload.length, avail_out := to_uint32 destLen2 })
      hm hcs hus hi2 hg
      (by rw [hdrop, to_size_t_sub_header hp, to_uint32_of_lt hp32]) hrx hdx
      (by rw [hbx]; exact hx2)
    rw [hbx] at hd
    exact hd
  · obtain ⟨f, e, hf, he, ho, hok, hle⟩ := hcomp
    obtain ⟨g, e2, hg, he2, hgo, hok2⟩ := hdecomp
    rw [to_size_t_int32_of_lt hlt] at hle
    have hp31 : payload.length < 2147483648 := by omega
    have hp : payload.length + 16 < 4294967296 := by omega
    clear hle
    have hc := @zstd_wrapper_compress_eq W ⟨5, level⟩ _ dst _ _ f e _ hf he ho
      (by show e (to_size_t (to_int32 (payload.length : Int))) = 0
          rw [to_size_t_int32_of_lt hp31]; exact hok)
      hregion
    simp only [to_uint32_add_16 hp] at hc
    obtain ⟨hm, _, hcs, hus, hdrop⟩ := frame_fields
      (to_uint32 (codec_magic W 5)) 5 (payload.length + 16) x.length payload
      (to_uint32_lt _) (by decide) hp hx32
    refine round_trip_of_capabilities (by decide) (by rfl) rfl rfl hx
      (by rw [to_uint32_of_lt hlt32]; exact hc) ?_
    intro sl
    rw [he] at he2
    cases he2
    exact @zstd_wrapper_decompress_eq W ctx2 _ dst2 sl _ _ _ g e ⟨x, x.length⟩ hm hcs hus hg he
      (by rw [hdrop, to_size_t_sub_header hp]; exact hgo)
      (to_uint32_int32_of_lt hx)
      (by show e (to_size_t (to_int32 (x.length : Int))) = 0
          rw [to_size_t_int32_of_lt hx]; exact hok2)
      hx2

/-- The round trip at codec 1 (lz4-ipp) with the sample library, which stores its input
unchanged, the input "hello", a 24-byte destination for compress and an 8-byte
destination for decompress. -/
theorem library_round_trip_hello :
    ∃ r, Java_com_intel_compression_jni_IntelCompressionCodecJNI_compress sample_world
          ⟨((1 : Nat) : Int), 0⟩ (hello ++ []) hello.length (List.replicate 24 0) 24 = some r ∧
      r.thrown = [] ∧ r.invoked = [1] ∧
      r.ret = to_int32 ((hello.length : Int) + 16) ∧
      r.dst.take (16 + hello.length) =
        frame_bytes (to_uint32 (family_magic 1)) 1 (hello.length + 16) hello.length hello ∧
      ∃ r2, Java_com_intel_compression_jni_IntelCompressionCodecJNI_decompress sample_world
            ⟨0, 0⟩ (r.dst.take (16 + hello.length)) r.ret (List.replicate 8 0) 8 = some r2 ∧
        r2.thrown = [] ∧ r2.invoked = [1] ∧ r2.ret = hello.length ∧
        r2.dst.take hello.length = hello :=
  library_round_trip sample_linker sample_consts true sample_world 1 0 ⟨0, 0⟩ hello [] hello
    (List.replicate 24 0) (List.replicate 8 0) 24 8 rfl (by decide) (by decide) (by decide)
    (by decide) (by decide) (by decide) (by decide) (by decide)
    ⟨sample_lz4_compress, rfl, by decide, by decide, by decide⟩
    ⟨sample_lz4_decompress, rfl, by decide⟩

/-! ## Claims -/

/-- C1. Raw round trip through the dispatchers: with codec id 0, an input `x` and a
destination whose capacity `destLen` (a `jint`) is at least `len x + 16`, compress
returns `len x + 16` without raising; decompress of the produced frame, with any
context, any library state and a destination of capacity at least `len x`, returns
`len x` without raising and leaves exactly `x` in the destination. -/
theorem raw_round_trip (W W2 : World) (level : Int) (ctx2 : intel_codec_context_t)
    (x tail dst dst2 : List Byte) (destLen destLen2 : Int)
    (hx : x.length + 16 < 4294967296)
    (hcap : (x.length : Int) + 16 ≤ destLen) (hjint : destLen < 2147483648)
    (hmem : destLen ≤ dst.length)
    (hcap2 : (x.length : Int) ≤ destLen2) (hmem2 : destLen2 ≤ dst2.length) :
    ∃ r, Java_com_intel_compression_jni_IntelCompressionCodecJNI_compress W ⟨0, level⟩
          (x ++ tail) x.length dst destLen = some r ∧
      r.ret = x.length + 16 ∧ r.thrown = [] ∧
      ∃ r2, Java_com_intel_compression_jni_IntelCompressionCodecJNI_decompress W2 ctx2
            (r.dst.take (x.length + 16)) r.ret dst2 destLen2 = some r2 ∧
        r2.thrown = [] ∧ r2.ret = x.length ∧ r2.dst.take x.length = x := by
  have _ := hx
  refine ⟨_, compress_raw_codec W level x tail dst destLen (by omega) (by omega), rfl, rfl, ?_⟩
  simp only [take_frame_append]
  have := decompress_raw_frame W2 ctx2 x [] dst2 ((x.length : Int) + 16) destLen2 (by omega)
    (by omega)
  rw [List.append_nil] at this
  exact ⟨_, this, rfl, rfl, List.take_left' rfl⟩

/-- C1 at the input "hello" with a 24-byte destination. -/
theorem raw_round_trip_witness :
    ∃ r, Java_com_intel_compression_jni_IntelCompressionCodecJNI_compress
          (World.fresh ⟨0, 0, -1, -7, -4, 0, 0, 0⟩ true) ⟨0, 1⟩
          (([104, 101, 108, 108, 111] : List Byte) ++ [])
          ([104, 101, 108, 108, 111] : List Byte).length (List.replicate 24 0) 24 = some r ∧
      r.ret = ([104, 101, 108, 108, 111] : List Byte).length + 16 ∧ r.thrown = [] ∧
      ∃ r2, Java_com_intel_compression_jni_IntelCompressionCodecJNI_decompress
            (World.fresh ⟨0, 0, -1, -7, -4, 0, 0, 0⟩ true) ⟨7, 7⟩
            (r.dst.take (([104, 101, 108, 108, 111] : List Byte).length + 16)) r.ret
            (List.replicate 8 0) 8 = some r2 ∧
        r2.thrown = [] ∧ r2.ret = ([104, 101, 108, 108, 111] : List Byte).length ∧
        r2.dst.take ([104, 101, 108, 108, 111] : List Byte).length = [104, 101, 108, 108, 111] :=
  raw_round_trip _ _ 1 ⟨7, 7⟩ [104, 101, 108, 108, 111] [] (List.replicate 24 0)
    (List.replicate 8 0) 24 8 (by decide) (by decide) (by decide) (by decide) (by decide)
    (by decide)

/-- C2. Raw frame layout: for an input `x` with `len x + 16 < 2^32` and a destination
region of at least `len x + 16` bytes, `raw_wrapper_compress` returns 0, sets
`*dstLen` to `len x + 16` and leaves the words magic `0x57415249` (the constant
`'I' | 'R'<<8 | 'A'<<16 | 'W'<<24`), codec 0, compressed_size `len x + 16`,
uncompressed_size `len x` in the first 16 bytes, the bytes of `x` at offset 16, and
the rest of the region untouched. For "hello" and a 21-byte region the result is
the 21-byte frame with codec 0, uncompressed_size 5 and compressed_size 21. -/
theorem raw_frame_layout (W : World) (ctx : intel_codec_context_t)
    (x tail dst : List Byte) (dstLen : Nat)
    (hx : x.length + 16 < 4294967296) (hcap : x.length + 16 ≤ dst.length) :
    (∃ r, raw_wrapper_compress W ctx (x ++ tail) x.length dst dstLen = some r ∧
      r.ret = 0 ∧ r.dstLen = x.length + 16 ∧
      rd32 r.dst off_magic = some 0x57415249 ∧
      rd32 r.dst off_codec = some 0 ∧
      rd32 r.dst off_compressed_size = some (x.length + 16) ∧
      rd32 r.dst off_uncompressed_size = some x.length ∧
      load r.dst sizeof_header x.length = some x ∧
      r.dst.take (x.length + 16) =
        le32 0x57415249 ++ le32 0 ++ le32 (x.length + 16) ++ le32 x.length ++ x ∧
      r.dst.drop (x.length + 16) = dst.drop (x.length + 16)) ∧
    to_uint32 (fourcc 'I' 'R' 'A' 'W') = 0x57415249 ∧
    (x = [104, 101, 108, 108, 111] → dst.length = 21 →
      ∃ r, raw_wrapper_compress W ctx (x ++ tail) x.length dst dstLen = some r ∧
        r.dst = [73, 82, 65, 87, 0, 0, 0, 0, 21, 0, 0, 0, 5, 0, 0, 0, 104, 101, 108, 108, 111] ∧
        r.dst.length = 21 ∧ rd32 r.dst off_codec = some 0 ∧
        rd32 r.dst off_uncompressed_size = some 5 ∧
        rd32 r.dst off_compressed_size = some 21) := by
  have hrun := raw_wrapper_compress_eq W ctx x tail dst dstLen hx hcap
  have hmv : to_uint32 RAW_MAGIC = 0x57415249 := raw_magic_value
  obtain ⟨hm, hc, hcs, hus, hp⟩ := rd32_frame_bytes (to_uint32 RAW_MAGIC) INTEL_CODEC_RAW
    (x.length + 16) x.length x (dst.drop (x.length + 16)) (to_uint32_lt _) (by decide)
    hx (by omega)
  refine ⟨⟨_, hrun, rfl, rfl, ?_, hc, hcs, hus, hp, ?_, ?_⟩, hmv, ?_⟩
  · rw [← hmv]; exact hm
  · show (raw_frame x ++ _).take (x.length + 16) = _
    rw [take_frame_append, ← hmv]
    simp [raw_frame, frame_bytes, INTEL_CODEC_RAW]
  · show (raw_frame x ++ _).drop (x.length + 16) = _
    exact List.drop_left' (length_raw_frame x)
  · intro hxe hd
    subst hxe
    refine ⟨_, hrun, ?_, ?_, hc, hus, hcs⟩
    · show raw_frame _ ++ List.drop (5 + 16) dst = _
      rw [List.drop_of_length_le (by omega)]
      decide
    · show (raw_frame _ ++ List.drop (5 + 16) dst).length = 21
      rw [List.drop_of_length_le (by omega)]
      decide

/-- C2 at the input "hello" with a 21-byte destination. -/
theorem raw_frame_layout_witness :
    (∃ r, raw_wrapper_compress (World.fresh ⟨0, 0, -1, -7, -4, 0, 0, 0⟩ true) ⟨0, 0⟩
        (([104, 101, 108, 108, 111] : List Byte) ++ [])
        ([104, 101, 108, 108, 111] : List Byte).length (List.replicate 21 0) 21 = some r ∧
      r.ret = 0 ∧ r.dstLen = 21 ∧ rd32 r.dst off_magic = some 0x57415249 ∧
      rd32 r.dst off_codec = some 0 ∧ rd32 r.dst off_compressed_size = some 21 ∧
      rd32 r.dst off_uncompressed_size = some 5 ∧
      load r.dst sizeof_header 5 = some [104, 101, 108, 108, 111]) := by
  obtain ⟨⟨r, h1, h2, h3, h4, h5, h6, h7, h8, _⟩, _⟩ :=
    raw_frame_layout (World.fresh ⟨0, 0, -1, -7, -4, 0, 0, 0⟩ true) ⟨0, 0⟩
      [104, 101, 108, 108, 111] [] (List.replicate 21 0) 21 (by decide) (by decide)
  exact ⟨r, h1, h2, h3, h4, h5, h6, h7, h8⟩

/-- C3. Fallback guarantee: for a context with codec id in 0..5, an input `x` and a
destination of capacity at least `len x + 16`, if the compress capability of the
chosen entry returns a non-zero status then the compress dispatcher returns
`len x + 16` without raising, the first `len x + 16` bytes of the destination are
the raw frame of `x`, the capabilities called are the chosen one and then the raw
one, once each, and decompress of that frame gives back `x` through entry 0. -/
theorem compress_fallback (W W2 : World) (ctx ctx2 : intel_codec_context_t)
    (x tail dst dst2 : List Byte) (destLen destLen2 : Int)
    (desc : intel_codec_desc_t) (f : compress_func) (cr : CodecResult)
    (hc0 : 0 ≤ ctx.codec) (hc5 : ctx.codec ≤ 5)
    (hcap : (x.length : Int) + 16 ≤ destLen) (hjint : destLen < 2147483648)
    (hmem : destLen ≤ dst.length)
    (hdesc : intel_codec_table[ctx.codec.toNat]? = some desc) (hf : desc.compress = some f)
    (hrun : f W ctx (x ++ tail) x.length dst (to_uint32 destLen) = some cr)
    (hfail : cr.ret ≠ 0)
    (hcap2 : (x.length : Int) ≤ destLen2) (hmem2 : destLen2 ≤ dst2.length) :
    ∃ r, Java_com_intel_compression_jni_IntelCompressionCodecJNI_compress W ctx
          (x ++ tail) x.length dst destLen = some r ∧
      r.ret = x.length + 16 ∧ r.thrown = [] ∧
      r.dst.take (x.length + 16) = raw_frame x ∧
      rd32 r.dst off_magic = some 0x57415249 ∧ rd32 r.dst off_codec = some 0 ∧
      load r.dst sizeof_header x.length = some x ∧
      r.invoked = [ctx.codec.toNat, 0] ∧
      ∃ r2, Java_com_intel_compression_jni_IntelCompressionCodecJNI_decompress W2 ctx2
            (r.dst.take (x.length + 16)) r.ret dst2 destLen2 = some r2 ∧
        r2.thrown = [] ∧ r2.ret = x.length ∧ r2.dst.take x.length = x ∧ r2.invoked = [0] := by
  obtain ⟨desc2, f2, ht, hf2, heq⟩ := compress_dispatch W ctx (x ++ tail) dst x.length destLen
    hc0 hc5
  rw [hdesc] at ht
  cases ht
  rw [hf] at hf2
  cases hf2
  have hpost := compress_entry_post hdesc hf hrun
  obtain ⟨_, hlen, _⟩ := hpost
  rw [to_uint32_of_lt (by omega), hrun] at heq
  simp only [Option.some_bind, if_pos hfail] at heq
  rw [raw_wrapper_compress_eq W ctx x tail cr.dst cr.dstLen (by omega) (by omega)] at heq
  simp only [Option.some_bind] at heq
  have hret : to_int32 ((x.length + 16 : Nat) : Int) = x.length + 16 := by
    unfold to_int32; omega
  obtain ⟨hm, hc, _, _, hp⟩ := rd32_frame_bytes (to_uint32 RAW_MAGIC) INTEL_CODEC_RAW
    (x.length + 16) x.length x (cr.dst.drop (x.length + 16)) (to_uint32_lt _) (by decide)
    (by omega) (by omega)
  refine ⟨_, heq, hret, rfl, take_frame_append _ _, ?_, hc, hp, rfl, ?_⟩
  · rw [← raw_magic_value]; exact hm
  · simp only [take_frame_append]
    have := decompress_raw_frame W2 ctx2 x [] dst2 ((x.length : Int) + 16) destLen2 (by omega)
      (by omega)
    rw [List.append_nil] at this
    rw [hret]
    exact ⟨_, this, rfl, rfl, List.take_left' rfl, rfl⟩

/-- C3 at codec 2 (lz4-hc-ipp) with a library whose `LZ4_compress_HC` reports
failure, the input "hello" and a 24-byte destination. -/
theorem compress_fallback_witness :
    ∃ r, Java_com_intel_compression_jni_IntelCompressionCodecJNI_compress sample_world ⟨2, 9⟩
          (hello ++ []) hello.length (List.replicate 24 0) 24 = some r ∧
      r.ret = hello.length + 16 ∧ r.thrown = [] ∧
      r.dst.take (hello.length + 16) = raw_frame hello ∧
      rd32 r.dst off_magic = some 0x57415249 ∧ rd32 r.dst off_codec = some 0 ∧
      load r.dst sizeof_header hello.length = some hello ∧
      r.invoked = [2, 0] ∧
      ∃ r2, Java_com_intel_compression_jni_IntelCompressionCodecJNI_decompress sample_world
            ⟨0, 0⟩ (r.dst.take (hello.length + 16)) r.ret (List.replicate 5 0) 5 = some r2 ∧
        r2.thrown = [] ∧ r2.ret = hello.length ∧ r2.dst.take hello.length = hello ∧
        r2.invoked = [0] :=
  compress_fallback sample_world sample_world ⟨2, 9⟩ ⟨0, 0⟩ hello [] (List.replicate 24 0)
    (List.replicate 5 0) 24 5
    ⟨"lz4-hc-ipp", some lz4_ipp_wrapper_compress_hc, some lz4_ipp_wrapper_decompress, none, none⟩
    lz4_ipp_wrapper_compress_hc
    ⟨[76, 90, 52, 73, 2, 0, 0, 0, 0, 0, 0, 0, 5, 0, 0, 0, 0, 0, 0, 0, 0, 0, 0, 0], 24, -1⟩
    (by decide) (by decide) (by decide) (by decide) (by decide) rfl rfl (by decide) (by decide)
    (by decide) (by decide)

/-- C4. Self-description of the codec id: for a registry index `i` in 0..5, a
compress capability of entry `i` that returns 0 has written `i` in the codec field
of the header. Hence the frame left by the compress dispatcher names `context.codec`
when the chosen capability was the only one called and 0 after a fallback, and the
decompress dispatcher, in any process state and with any context, runs exactly the
decompress capability of the entry that produced the frame. -/
theorem codec_id_self_description (W W2 : World) (ctx ctx2 : intel_codec_context_t)
    (src dst dst2 : List Byte) (sl dl sl2 dl2 : Int) (i : Nat)
    (hi : i ≤ 5) (hctx : ctx.codec = i) :
    (∀ desc f n dln cr, intel_codec_table[i]? = some desc → desc.compress = some f →
      f W ctx src n dst dln = some cr → cr.ret = 0 → rd32 cr.dst off_codec = some i) ∧
    (∀ r, Java_com_intel_compression_jni_IntelCompressionCodecJNI_compress W ctx src sl dst dl =
        some r →
      ∃ producer, rd32 r.dst off_codec = some producer ∧
        ((r.invoked = [i] ∧ producer = i) ∨ (r.invoked = [i, 0] ∧ producer = 0)) ∧
        ∃ desc f, intel_codec_table[producer]? = some desc ∧ desc.decompress = some f ∧
          Java_com_intel_compression_jni_IntelCompressionCodecJNI_decompress W2 ctx2 r.dst sl2
              dst2 dl2 =
            (f W2 ctx2 r.dst (to_uint32 sl2) dst2 (to_uint32 dl2)).bind fun cr =>
              some ⟨cr.dst, to_int32 cr.dstLen,
                if cr.ret ≠ 0 then [JavaException.InternalError "Could not decompress data."]
                else [], [producer]⟩) := by
  have htn : ctx.codec.toNat = i := by omega
  constructor
  · intro desc f n dln cr ht hf hrun _
    exact (compress_entry_post ht hf hrun).codec_field (by omega)
  · intro r hr
    obtain ⟨cr, hpost, hcase⟩ := compress_dispatch_post (by omega) (by omega) hr
    rw [htn] at hpost hcase
    rcases hcase with ⟨_, rfl⟩ | ⟨_, r2, hpost2, _, rfl⟩
    · have hcf := hpost.codec_field (by omega)
      exact ⟨i, hcf, Or.inl ⟨rfl, rfl⟩, decompress_dispatch W2 ctx2 _ dst2 sl2 dl2 hcf (by omega)⟩
    · have hcf := hpost2.codec_field (by omega)
      exact ⟨0, hcf, Or.inr ⟨rfl, rfl⟩, decompress_dispatch W2 ctx2 _ dst2 sl2 dl2 hcf (by omega)⟩

/-- C4 at codec 1 (lz4-ipp) with the sample library and the input "hello". -/
theorem codec_id_self_description_witness :
    ∃ r, Java_com_intel_compression_jni_IntelCompressionCodecJNI_compress sample_world ⟨1, 0⟩
          hello 5 (List.replicate 40 0) 40 = some r ∧
      ∃ producer, rd32 r.dst off_codec = some producer ∧
        ((r.invoked = [1] ∧ producer = 1) ∨ (r.invoked = [1, 0] ∧ producer = 0)) ∧
        ∃ desc f, intel_codec_table[producer]? = some desc ∧ desc.decompress = some f ∧
          Java_com_intel_compression_jni_IntelCompressionCodecJNI_decompress sample_world
              ⟨0, 0⟩ r.dst 21 (List.replicate 5 0) 5 =
            (f sample_world ⟨0, 0⟩ r.dst (to_uint32 21) (List.replicate 5 0) (to_uint32 5)).bind
              fun cr => some ⟨cr.dst, to_int32 cr.dstLen,
                if cr.ret ≠ 0 then [JavaException.InternalError "Could not decompress data."]
                else [], [producer]⟩ :=
  ⟨⟨[76, 90, 52, 73, 1, 0, 0, 0, 21, 0, 0, 0, 5, 0, 0, 0, 104, 101, 108, 108, 111, 0, 0, 0, 0, 0,
      0, 0, 0, 0, 0, 0, 0, 0, 0, 0, 0, 0, 0, 0], 21, [], [1]⟩, by decide,
    (codec_id_self_description sample_world sample_world ⟨1, 0⟩ ⟨0, 0⟩ hello
      (List.replicate 40 0) (List.replicate 5 0) 5 40 21 5 1 (by decide) rfl).2 _ (by decide)⟩

/-- C6 fails on the code for the lz4 entries. The frame announces
`uncompressed_size = 0xFFFFFFFF`; the library's decompress routine reports the error
-1 (the 5-byte payload does not fit the 4-byte destination); the wrapper compares
the `int` -1 with the header word in `unsigned int`, finds them equal and returns 0,
and the decompress dispatcher returns -1 without raising. -/
theorem lz4_decompress_error_accepted :
    sample_lz4_decompress (lz4_error_frame.drop sizeof_header) 5 4 = ⟨[], -1⟩ ∧
    rd32 lz4_error_frame off_codec = some 1 ∧
    rd32 lz4_error_frame off_uncompressed_size = some 4294967295 ∧
    lz4_ipp_wrapper_decompress sample_world ⟨0, 0⟩ lz4_error_frame 21 (List.replicate 4 0) 4 =
      some ⟨List.replicate 4 0, 4294967295, 0⟩ ∧
    Java_com_intel_compression_jni_IntelCompressionCodecJNI_decompress sample_world ⟨0, 0⟩
        lz4_error_frame 21 (List.replicate 4 0) 4 =
      some ⟨List.replicate 4 0, -1, [], [1]⟩ := by
  decide

/-- C7. Strict rejection of header corruption: take a frame produced by the compress
dispatcher for a codec id in 0..5 whose library was initialised successfully, in a
process whose globals were set by `init`. Flip any one of the first 64 bits (the
magic and codec words) of the frame, taken as the whole destination region or any
leading part of at least 8 bytes. The decompress dispatcher, in any process whose
globals were set by `init` and with any context, raises an exception and writes
nothing; it never completes with a byte count. -/
theorem header_corruption_rejected (L L2 : DynamicLinker) (K K2 : ExternalConstants)
    (m m2 : Bool) (ctx ctx2 : intel_codec_context_t) (src dst dst2 : List Byte)
    (sl dl sl2 dl2 : Int) (r : JniResult) (i k n : Nat)
    (hi : i ≤ 5) (hctx : ctx.codec = i)
    (hinit : library_init_status L (World.fresh K m) i = 0)
    (h : Java_com_intel_compression_jni_IntelCompressionCodecJNI_compress
      (Java_com_intel_compression_jni_IntelCompressionCodecJNI_init L (World.fresh K m)).world
      ctx src sl dst dl = some r)
    (hk : k < 64) (hn : 8 ≤ n) :
    ∃ r2, Java_com_intel_compression_jni_IntelCompressionCodecJNI_decompress
        (Java_com_intel_compression_jni_IntelCompressionCodecJNI_init L2
          (World.fresh K2 m2)).world
        ctx2 (flip_bit (r.dst.take n) k) sl2 dst2 dl2 = some r2 ∧
      r2.thrown ≠ [] ∧ r2.dst = dst2 := by
  obtain ⟨j, t, hj, hd⟩ := produced_header hi hctx hinit h
  have hlen : (le32 (to_uint32 (family_magic j)) ++ le32 j).length = 8 := rfl
  have htake : r.dst.take n =
      (le32 (to_uint32 (family_magic j)) ++ le32 j) ++ t.take (n - 8) := by
    rw [hd, List.take_append_eq_append_take, hlen, List.take_of_length_le (by rw [hlen]; exact hn)]
  rw [htake, flip_bit_append _ _ _ (by rw [hlen]; omega)]
  have hfl := length_flip_bit (le32 (to_uint32 (family_magic j)) ++ le32 j) k
  rw [hlen] at hfl
  generalize hp : flip_bit (le32 (to_uint32 (family_magic j)) ++ le32 j) k = p at hfl
  have hmis := flipped_header_mismatch j hj k hk
  rw [hp] at hmis
  have hsplit : p ++ t.take (n - 8) =
      p.take 4 ++ (p.drop 4 ++ (t.take (n - 8) ++ ([] ++ []))) := by
    rw [List.append_nil, List.append_nil, ← List.append_assoc, List.take_append_drop]
  rw [hsplit]
  apply decompress_rejects _ ctx2 (p.take 4) (p.drop 4) _ [] [] dst2 sl2 dl2
    (by simp; omega) (by simp; omega)
  rcases hmis with h6 | ⟨hne, hne0⟩
  · exact Or.inl h6
  · right
    rcases (init_magics L2 K2 m2 (of_le32 (p.drop 4))).1 with e | e
    · rw [e]; exact hne
    · rw [e]; exact hne0

/-- C7 at codec 1 with the sample library and the input "hello": bit 3 of the magic
word of the 21-byte frame is flipped. -/
theorem header_corruption_rejected_witness :
    ∃ r2, Java_com_intel_compression_jni_IntelCompressionCodecJNI_decompress
        (Java_com_intel_compression_jni_IntelCompressionCodecJNI_init sample_linker
          (World.fresh sample_consts true)).world
        ⟨0, 0⟩
        (flip_bit ((([76, 90, 52, 73, 1, 0, 0, 0, 21, 0, 0, 0, 5, 0, 0, 0, 104, 101, 108, 108,
          111, 0, 0, 0, 0, 0, 0, 0, 0, 0, 0, 0, 0, 0, 0, 0, 0, 0, 0, 0] : List Byte)).take 21) 3)
        21 (List.replicate 5 0) 5 = some r2 ∧
      r2.thrown ≠ [] ∧ r2.dst = List.replicate 5 0 :=
  header_corruption_rejected sample_linker sample_linker sample_consts sample_consts true true
    ⟨1, 0⟩ ⟨0, 0⟩ hello (List.replicate 40 0) (List.replicate 5 0) 5 40 21 5
    ⟨[76, 90, 52, 73, 1, 0, 0, 0, 21, 0, 0, 0, 5, 0, 0, 0, 104, 101, 108, 108, 111, 0, 0, 0, 0, 0,
      0, 0, 0, 0, 0, 0, 0, 0, 0, 0, 0, 0, 0, 0], 21, [], [1]⟩ 1 3 21
    (by decide) rfl (by decide) (by decide) (by decide) (by decide)

/-- C8. Unknown codec id on decompress: when the codec word of the source header is
6 or more, the decompress dispatcher completes with the `InternalError`
"Unsupport decompress codec type." pending, calls no capability (empty trace) and
leaves the destination as it was; the result holds for every process state, so no
library routine takes part in it. -/
theorem unknown_codec_decompress (W : World) (ctx : intel_codec_context_t)
    (src dst : List Byte) (sl dl : Int) (c : Nat)
    (hrd : rd32 src off_codec = some c) (hc : 6 ≤ c) :
    Java_com_intel_compression_jni_IntelCompressionCodecJNI_decompress W ctx src sl dst dl =
      some ⟨dst, 0, [JavaException.InternalError "Unsupport decompress codec type."], []⟩ := by
  unfold Java_com_intel_compression_jni_IntelCompressionCodecJNI_decompress
  rw [hrd]
  simp only [Option.bind_eq_bind, Option.some_bind, intel_codec_table, List.length_cons,
    List.length_nil]
  rw [if_neg (by omega)]
  rfl

/-- C8 at a header whose codec word is 99. -/
theorem unknown_codec_decompress_witness :
    rd32 (frame_bytes (to_uint32 RAW_MAGIC) 99 21 5 hello) off_codec = some 99 ∧ 6 ≤ 99 ∧
    Java_com_intel_compression_jni_IntelCompressionCodecJNI_decompress sample_world ⟨0, 0⟩
        (frame_bytes (to_uint32 RAW_MAGIC) 99 21 5 hello) 21 (List.replicate 5 0) 5 =
      some ⟨List.replicate 5 0, 0,
        [JavaException.InternalError "Unsupport decompress codec type."], []⟩ :=
  ⟨by decide, by decide,
    unknown_codec_decompress sample_world ⟨0, 0⟩ (frame_bytes (to_uint32 RAW_MAGIC) 99 21 5 hello)
      (List.replicate 5 0) 21 5 99 (by decide) (by decide)⟩

/-- C9. Unknown codec id on compress: when the codec id of the context is negative
or 6 or more, the compress dispatcher completes with the `InternalError`
"Unsupport compress codec type." pending and returns 0; it calls no capability, not
even the raw one (empty trace), and leaves the destination as it was. -/
theorem unknown_codec_compress (W : World) (ctx : intel_codec_context_t)
    (src dst : List Byte) (sl dl : Int) (hc : ctx.codec < 0 ∨ 6 ≤ ctx.codec) :
    Java_com_intel_compression_jni_IntelCompressionCodecJNI_compress W ctx src sl dst dl =
      some ⟨dst, 0, [JavaException.InternalError "Unsupport compress codec type."], []⟩ := by
  unfold Java_com_intel_compression_jni_IntelCompressionCodecJNI_compress
  simp only [intel_codec_table, List.length_cons, List.length_nil]
  rw [if_neg (by push_cast; omega)]
  rfl

/-- C9 at the codec ids 6 and -1. -/
theorem unknown_codec_compress_witness :
    ((6 : Int) < 0 ∨ (6 : Int) ≤ 6) ∧
    Java_com_intel_compression_jni_IntelCompressionCodecJNI_compress sample_world ⟨6, 0⟩
        hello 5 (List.replicate 24 0) 24 =
      some ⟨List.replicate 24 0, 0,
        [JavaException.InternalError "Unsupport compress codec type."], []⟩ ∧
    Java_com_intel_compression_jni_IntelCompressionCodecJNI_compress sample_world ⟨-1, 0⟩
        hello 5 (List.replicate 24 0) 24 =
      some ⟨List.replicate 24 0, 0,
        [JavaException.InternalError "Unsupport compress codec type."], []⟩ :=
  ⟨by decide,
    unknown_codec_compress sample_world ⟨6, 0⟩ hello (List.replicate 24 0) 5 24 (by decide),
    unknown_codec_compress sample_world ⟨-1, 0⟩ hello (List.replicate 24 0) 5 24 (by decide)⟩

/-- C10 as stated fails: the source region holds the raw frame of "hello" and the
caller declares a span of 15 bytes (`srcLen = 15 < 16`). The decompress dispatcher
does not look at `srcLen`: it reads the header words, raises nothing and returns the
byte count 5 with "hello" in the destination. -/
theorem truncated_frame_counterexample :
    Java_com_intel_compression_jni_IntelCompressionCodecJNI_decompress sample_world ⟨0, 0⟩
        (raw_frame hello) 15 (List.replicate 5 0) 5 =
      some ⟨hello, 5, [], [0]⟩ := by
  decide

/-- C10, amended. The decompress dispatcher and the decompress capabilities never
consult `srcLen`: for every process state, context, source region and destination,
the outcome (exception or byte count, bytes written, capability called) is the same
for any two values of `srcLen`, in particular for values below 16. -/
theorem decompress_ignores_srcLen (W : World) (ctx : intel_codec_context_t)
    (src dst : List Byte) (sl sl2 dl : Int) :
    Java_com_intel_compression_jni_IntelCompressionCodecJNI_decompress W ctx src sl dst dl =
      Java_com_intel_compression_jni_IntelCompressionCodecJNI_decompress W ctx src sl2 dst dl := by
  unfold Java_com_intel_compression_jni_IntelCompressionCodecJNI_decompress
  cases hrd : rd32 src off_codec with
  | none => rfl
  | some c =>
    simp only [Option.bind_eq_bind, Option.some_bind]
    by_cases hc : c < 6
    · interval_cases c <;> rfl
    · simp only [intel_codec_table, List.length_cons, List.length_nil]
      rw [if_neg (by omega), if_neg (by omega)]

/-- C11 fails on the code for the lz4 entry. Codec 1, the input "hello" and
`destLen = 21 = len x + 16`. The wrapper passes the whole `*dstLen` (21) as capacity
for the payload that starts at offset 16; the library stores and reports 6 bytes,
within the capacity it is passed. With a destination region of exactly 21 bytes the
last byte falls outside of the region; with a longer region the dispatcher returns
22 and has written 22 bytes, more than `destLen`. -/
theorem compress_exceeds_capacity :
    (hello.length : Int) + 16 ≤ 21 ∧
    (sample_lz4_literal hello 5 21 1).bytes.length = 6 ∧
    (sample_lz4_literal hello 5 21 1).ret = 6 ∧
    Java_com_intel_compression_jni_IntelCompressionCodecJNI_compress sample_world_literal
        ⟨1, 1⟩ hello 5 (List.replicate 21 0) 21 = none ∧
    Java_com_intel_compression_jni_IntelCompressionCodecJNI_compress sample_world_literal
        ⟨1, 1⟩ hello 5 (List.replicate 22 0) 21 =
      some ⟨[76, 90, 52, 73, 1, 0, 0, 0, 22, 0, 0, 0, 5, 0, 0, 0, 80, 104, 101, 108, 108, 111],
        22, [], [1]⟩ := by
  decide

/-- C12 as stated fails at registry index 0: "raw" is the name registered at index
0 and is a prefix of the requested name "raw", yet create-compression-context
returns codec id 1 (with the diagnostic naming lz4-ipp), not 0. -/
theorem lookup_by_name_counterexample :
    (intel_codec_table[0]?).map (·.name) = some "raw" ∧
    (∃ rest, c_str "raw" = c_str "raw" ++ rest) ∧
    Java_com_intel_compression_jni_IntelCompressionCodecJNI_createCompressContext true
        (c_str "raw") 0 =
      ⟨some ⟨1, 0⟩, [], some "lz4-ipp"⟩ :=
  ⟨rfl, ⟨[], by decide⟩, by decide⟩

/-- C12, amended. Lookup by name: the search covers the registry indices 1..5. For a
requested name of which the name registered at an index `i` in 1..5 is a prefix, and
of which no name registered at an index `j` with `1 ≤ j < i` is a prefix,
create-compression-context (its allocation succeeding) returns a context with codec
id `i` and the given level, without diagnostic; in particular the exact name
registered at `i` yields codec id `i`. -/
theorem lookup_by_name (codec_name : List Byte) (level : Int) (i : Nat)
    (d : intel_codec_desc_t) (hi1 : 1 ≤ i) (hd : intel_codec_table[i]? = some d)
    (hpre : ∃ rest, codec_name = c_str d.name ++ rest)
    (hfirst : ∀ (j : Nat) (e : intel_codec_desc_t), 1 ≤ j → j < i →
      intel_codec_table[j]? = some e → ¬ ∃ rest, codec_name = c_str e.name ++ rest) :
    Java_com_intel_compression_jni_IntelCompressionCodecJNI_createCompressContext true
        codec_name level = ⟨some ⟨i, level⟩, [], none⟩ ∧
    Java_com_intel_compression_jni_IntelCompressionCodecJNI_createCompressContext true
        (c_str d.name) level = ⟨some ⟨i, level⟩, [], none⟩ := by
  have hi6 : i < 6 := by
    by_contra hn
    have : intel_codec_table[i]? = none :=
      List.getElem?_eq_none (by simp [intel_codec_table]; omega)
    rw [this] at hd; cases hd
  exact ⟨create_of_find _ level i (find_codec_first codec_name i d hi1 hd hpre hfirst) hi6,
    create_of_find _ level i (exact_name_index i d hi1 hd) hi6⟩

set_option maxRecDepth 8000 in
/-- C12 (amended) at the requested name "zstd-fast" and level 3: the name "zstd"
registered at index 5 is a prefix, none of the names registered at 1..4 is. -/
theorem lookup_by_name_witness :
    Java_com_intel_compression_jni_IntelCompressionCodecJNI_createCompressContext true
        (c_str "zstd-fast") 3 = ⟨some ⟨5, 3⟩, [], none⟩ ∧
    Java_com_intel_compression_jni_IntelCompressionCodecJNI_createCompressContext true
        (c_str "zstd") 3 = ⟨some ⟨5, 3⟩, [], none⟩ :=
  lookup_by_name (c_str "zstd-fast") 3 5
    ⟨"zstd", some zstd_wrapper_compress, some zstd_wrapper_decompress, some zstd_wrapper_init,
      some "libzstd.so"⟩
    (by decide) rfl ⟨c_str "-fast", by decide⟩
    (by
      intro j e h1 h5 he
      apply not_prefix_of_strncmp _ _ (List.getElem?_mem he)
      interval_cases j <;> simp [intel_codec_table] at he <;> subst he <;> decide)

/-- C13. Default codec for an unknown name: when none of the registered names is a
prefix of the requested name, create-compression-context (its allocation
succeeding) raises nothing and returns a context with codec id 1 and the requested
level, after printing the diagnostic that names "lz4-ipp". -/
theorem default_codec (codec_name : List Byte) (level : Int)
    (hno : ∀ (j : Nat) (e : intel_codec_desc_t), intel_codec_table[j]? = some e →
      ¬ ∃ rest, codec_name = c_str e.name ++ rest) :
    Java_com_intel_compression_jni_IntelCompressionCodecJNI_createCompressContext true
        codec_name level = ⟨some ⟨1, level⟩, [], some "lz4-ipp"⟩ :=
  create_default codec_name level (find_codec_none codec_name fun j e _ he => hno j e he)

set_option maxRecDepth 8000 in
/-- C13 at the requested name "snappy" and level 3. -/
theorem default_codec_witness :
    Java_com_intel_compression_jni_IntelCompressionCodecJNI_createCompressContext true
        (c_str "snappy") 3 = ⟨some ⟨1, 3⟩, [], some "lz4-ipp"⟩ :=
  default_codec (c_str "snappy") 3 (no_match_of_strncmp (c_str "snappy") (by decide))

/-- C14 fails on the code. No library is found: `init` issues the `THROW` of an
`UnsatisfiedLinkError` for each of the four codecs (that of lz4-ipp is raised, the
three later ones are issued with it pending) and leaves their entry points `NULL`,
but nothing records the failure. Compress with a context naming codec 1 finds the
capability in the table and calls through the `NULL` pointer (undefined behaviour,
`none`), instead of ending as for an absent capability; so does decompress of a
frame whose header names codec 1 with magic 0. -/
theorem init_failure_not_recorded :
    (Java_com_intel_compression_jni_IntelCompressionCodecJNI_init sample_linker_missing
        (World.fresh sample_consts true)).thrown =
      JniExceptionState.undefined (JavaException.UnsatisfiedLinkError "lz4-ipp")
        [JavaException.UnsatisfiedLinkError "zlib-ipp", JavaException.UnsatisfiedLinkError "igzip",
          JavaException.UnsatisfiedLinkError "zstd"] ∧
    sample_world_missing.g_lz4_ipp_wrapper_context.compress.isNone = true ∧
    sample_world_missing.g_lz4_ipp_wrapper_context.decompress.isNone = true ∧
    Java_com_intel_compression_jni_IntelCompressionCodecJNI_compress sample_world_missing
        ⟨1, 0⟩ hello 5 (List.replicate 40 0) 40 = none ∧
    Java_com_intel_compression_jni_IntelCompressionCodecJNI_compress sample_world_missing
        ⟨1, 0⟩ hello 5 (List.replicate 40 0) 40 ≠
      some ⟨List.replicate 40 0, 0,
        [JavaException.InternalError "Unsupport compress codec type."], []⟩ ∧
    Java_com_intel_compression_jni_IntelCompressionCodecJNI_decompress sample_world_missing
        ⟨0, 0⟩ (frame_bytes 0 1 21 5 hello) 21 (List.replicate 5 0) 5 = none := by
  decide

/-- C15 fails on the code when more than one codec fails. Whatever the dynamic linker
finds, `init` calls the `init` capability of the registry entries 1, 3, 4 and 5 (the
entries that have one), once each and in this order, each on the globals left by the
one before, and issues one `THROW` of an `UnsatisfiedLinkError` naming the codec for
each entry whose `init` returned non-zero, in this order. The loop neither returns
nor clears the exception after a `THROW`. When no library is found, only the failure
of lz4-ipp is raised; the `THROW`s for zlib-ipp, igzip and zstd are issued while that
exception is pending, outside of what the JNI specification defines, and the one
pending exception that the caller can see does not report these three codecs. -/
theorem init_throws_while_pending (L : DynamicLinker) (W : World) :
    intel_codec_table.map (fun d => d.init.isSome) = [false, true, false, true, true, true] ∧
    (Java_com_intel_compression_jni_IntelCompressionCodecJNI_init L W).invoked = [1, 3, 4, 5] ∧
    (Java_com_intel_compression_jni_IntelCompressionCodecJNI_init L W).world =
      (zstd_wrapper_init L (igzip_wrapper_init L (zlib_ipp_wrapper_init L
        (lz4_ipp_wrapper_init L W).1).1).1).1 ∧
    (Java_com_intel_compression_jni_IntelCompressionCodecJNI_init L W).thrown =
      report_failure (report_failure (report_failure (report_failure JniExceptionState.clear
        (library_init_status L W 1) "lz4-ipp") (library_init_status L W 3) "zlib-ipp")
        (library_init_status L W 4) "igzip") (library_init_status L W 5) "zstd" ∧
    (Java_com_intel_compression_jni_IntelCompressionCodecJNI_init sample_linker_missing
        (World.fresh sample_consts true)).thrown =
      JniExceptionState.undefined (JavaException.UnsatisfiedLinkError "lz4-ipp")
        [JavaException.UnsatisfiedLinkError "zlib-ipp", JavaException.UnsatisfiedLinkError "igzip",
          JavaException.UnsatisfiedLinkError "zstd"] := by
  refine ⟨rfl, rfl, rfl, ?_, by decide⟩
  have hz := (zlib_init_spec L W).2.2.2.2.2 (lz4_ipp_wrapper_init L W).1
  have hg := (igzip_init_spec L W).2.2.2.2.2
    (zlib_ipp_wrapper_init L (lz4_ipp_wrapper_init L W).1).1
  have hs := (zstd_init_spec L W).2.2.2.2.2
    (igzip_wrapper_init L (zlib_ipp_wrapper_init L (lz4_ipp_wrapper_init L W).1).1).1
  simp only [library_init_status]
  rw [← hz, ← hg, ← hs]
  rfl

/-- C16. Decompression depends only on the frame: for every process state, source
region, `srcLen`, destination and capacity, the decompress dispatcher gives the same
outcome (capability called, exception or byte count, bytes written) under any two
contexts, in particular under two contexts that create-decompression-context
returned with different indeterminate contents. -/
theorem decompress_context_independent (W : World) (c1 c2 u1 u2 : intel_codec_context_t)
    (src dst : List Byte) (sl dl : Int) :
    Java_com_intel_compression_jni_IntelCompressionCodecJNI_decompress W c1 src sl dst dl =
      Java_com_intel_compression_jni_IntelCompressionCodecJNI_decompress W c2 src sl dst dl ∧
    (Java_com_intel_compression_jni_IntelCompressionCodecJNI_createDecompressContext true
        u1).context = some u1 ∧
    (Java_com_intel_compression_jni_IntelCompressionCodecJNI_createDecompressContext true
        u2).context = some u2 ∧
    Java_com_intel_compression_jni_IntelCompressionCodecJNI_decompress W u1 src sl dst dl =
      Java_com_intel_compression_jni_IntelCompressionCodecJNI_decompress W u2 src sl dst dl := by
  have key : ∀ a b : intel_codec_context_t,
      Java_com_intel_compression_jni_IntelCompressionCodecJNI_decompress W a src sl dst dl =
        Java_com_intel_compression_jni_IntelCompressionCodecJNI_decompress W b src sl dst dl := by
    intro a b
    unfold Java_com_intel_compression_jni_IntelCompressionCodecJNI_decompress
    cases hrd : rd32 src off_codec with
    | none => rfl
    | some c =>
      simp only [Option.bind_eq_bind, Option.some_bind]
      by_cases hc : c < 6
      · interval_cases c <;> rfl
      · simp only [intel_codec_table, List.length_cons, List.length_nil]
        rw [if_neg (by omega), if_neg (by omega)]
  exact ⟨key c1 c2, rfl, rfl, key u1 u2⟩

/-- C17 fails on the code for the lz4 entry, by the capacity that its wrapper passes
to the library. The library behind codec 1 is resolved by `init` (status 0); for the input "hello" and
`destLen = 21 = len x + 16` its compress routine stores the 6 bytes of the payload
and reports 6, within the capacity 21 that it is passed, and its decompress routine,
given exactly these 6 bytes, stores "hello" and reports 5. The wrapper lets the
payload start at offset 16 with the whole `destLen` as capacity: with a destination
region of 21 bytes the last payload byte falls outside of the region and no frame is
produced. In a region of 22 bytes the frame is produced, with 22 > `destLen` bytes,
and decompresses to "hello": only the capacity passed to the library is at fault. -/
theorem round_trip_lost_to_overflow :
    library_init_status sample_linker_literal (World.fresh sample_consts true) 1 = 0 ∧
    library_compresses sample_world_literal_pair 1 ⟨1, 1⟩ hello 5 21
      [80, 104, 101, 108, 108, 111] ∧
    library_decompresses sample_world_literal_pair 1 [80, 104, 101, 108, 108, 111] 5 hello ∧
    Java_com_intel_compression_jni_IntelCompressionCodecJNI_compress sample_world_literal_pair
        ⟨1, 1⟩ hello 5 (List.replicate 21 0) 21 = none ∧
    Java_com_intel_compression_jni_IntelCompressionCodecJNI_compress sample_world_literal_pair
        ⟨1, 1⟩ hello 5 (List.replicate 22 0) 21 =
      some ⟨[76, 90, 52, 73, 1, 0, 0, 0, 22, 0, 0, 0, 5, 0, 0, 0, 80, 104, 101, 108, 108, 111],
        22, [], [1]⟩ ∧
    Java_com_intel_compression_jni_IntelCompressionCodecJNI_decompress sample_world_literal_pair
        ⟨0, 0⟩ [76, 90, 52, 73, 1, 0, 0, 0, 22, 0, 0, 0, 5, 0, 0, 0, 80, 104, 101, 108, 108, 111]
        22 (List.replicate 5 0) 5 =
      some ⟨hello, 5, [], [1]⟩ :=
  ⟨by decide, ⟨sample_lz4_literal, rfl, by decide, by decide, by decide⟩,
    ⟨sample_lz4_literal_decompress, rfl, by decide⟩, by decide, by decide, by decide⟩

/-- C18 fails on the code for raw frames. The source is the raw frame of "hello"
(`uncompressed_size = 5`) and the destination capacity is `destLen = 2`.
`raw_wrapper_decompress` copies `header.uncompressed_size` bytes without looking at
the capacity: the dispatcher raises nothing, has written 5 bytes and returns 5; with
a destination region of exactly 2 bytes the copy leaves the region. -/
theorem decompress_exceeds_capacity :
    Java_com_intel_compression_jni_IntelCompressionCodecJNI_decompress sample_world ⟨0, 0⟩
        (raw_frame hello) 21 (List.replicate 8 0) 2 =
      some ⟨[104, 101, 108, 108, 111, 0, 0, 0], 5, [], [0]⟩ ∧
    Java_com_intel_compression_jni_IntelCompressionCodecJNI_decompress sample_world ⟨0, 0⟩
        (raw_frame hello) 21 (List.replicate 2 0) 2 = none := by
  decide

/-- C19. Invariant of context creation: every context returned by
create-compression-context, for any requested name and level, has a codec id in
1..5 and the requested level, and one is returned whenever the allocation succeeds.
With such a context the compress dispatcher runs the compress capability of that
entry: a run that completes has raised nothing (the unsupported-codec branch is
never taken) and has called either that capability alone or that capability
followed, after its failure, by the raw one. -/
theorem created_context_invariant (malloc_succeeds : Bool) (codec_name : List Byte)
    (level : Int) :
    (malloc_succeeds = true →
      ∃ ctx, (Java_com_intel_compression_jni_IntelCompressionCodecJNI_createCompressContext
        malloc_succeeds codec_name level).context = some ctx) ∧
    ∀ ctx, (Java_com_intel_compression_jni_IntelCompressionCodecJNI_createCompressContext
        malloc_succeeds codec_name level).context = some ctx →
      1 ≤ ctx.codec ∧ ctx.codec ≤ 5 ∧ ctx.level = level ∧
      ∀ (W : World) (src dst : List Byte) (sl dl : Int),
        (∃ desc f, intel_codec_table[ctx.codec.toNat]? = some desc ∧ desc.compress = some f ∧
          Java_com_intel_compression_jni_IntelCompressionCodecJNI_compress W ctx src sl dst dl =
            (f W ctx src (to_uint32 sl) dst (to_uint32 dl)).bind fun r =>
              if r.ret ≠ 0 then
                (raw_wrapper_compress W ctx src (to_uint32 sl) r.dst r.dstLen).bind fun r2 =>
                  some ⟨r2.dst, to_int32 r2.dstLen, [], [ctx.codec.toNat, INTEL_CODEC_RAW]⟩
              else some ⟨r.dst, to_int32 r.dstLen, [], [ctx.codec.toNat]⟩) ∧
        ∀ r, Java_com_intel_compression_jni_IntelCompressionCodecJNI_compress W ctx src sl dst
            dl = some r →
          r.thrown = [] ∧ ctx.codec.toNat ≠ 0 ∧
            (r.invoked = [ctx.codec.toNat] ∨ r.invoked = [ctx.codec.toNat, 0]) := by
  constructor
  · intro hm
    subst hm
    obtain ⟨h1, h6⟩ := find_codec_range codec_name
    by_cases h5 : find_codec codec_name 1 (intel_codec_table.drop 1) = 6
    · exact ⟨_, by rw [create_default codec_name level h5]⟩
    · exact ⟨_, by rw [create_of_find codec_name level _ rfl (by omega)]⟩
  · intro ctx h
    obtain ⟨h1, h5, hl⟩ := create_context_range malloc_succeeds codec_name level ctx h
    refine ⟨h1, h5, hl, ?_⟩
    intro W src dst sl dl
    refine ⟨compress_dispatch W ctx src dst sl dl (by omega) h5, ?_⟩
    intro r hr
    obtain ⟨cr, _, hcase⟩ := compress_dispatch_post (by omega) h5 hr
    rcases hcase with ⟨_, rfl⟩ | ⟨_, r2, _, _, rfl⟩
    · exact ⟨rfl, by omega, Or.inl rfl⟩
    · exact ⟨rfl, by omega, Or.inr rfl⟩

/-- C19 at the requested name "lz4-ipp" and level 0: the context names codec 1, and
the compress dispatcher on "hello" with the sample library raises nothing and calls
entry 1. -/
theorem created_context_invariant_witness :
    (Java_com_intel_compression_jni_IntelCompressionCodecJNI_createCompressContext true
      (c_str "lz4-ipp") 0).context = some ⟨1, 0⟩ ∧
    ∃ r, Java_com_intel_compression_jni_IntelCompressionCodecJNI_compress sample_world ⟨1, 0⟩
          hello 5 (List.replicate 40 0) 40 = some r ∧
      r.thrown = [] ∧ (1 : Int).toNat ≠ 0 ∧
      (r.invoked = [(1 : Int).toNat] ∨ r.invoked = [(1 : Int).toNat, 0]) :=
  ⟨by decide,
    ⟨[76, 90, 52, 73, 1, 0, 0, 0, 21, 0, 0, 0, 5, 0, 0, 0, 104, 101, 108, 108, 111, 0, 0, 0, 0,
      0, 0, 0, 0, 0, 0, 0, 0, 0, 0, 0, 0, 0, 0, 0], 21, [], [1]⟩, by decide,
    (((created_context_invariant true (c_str "lz4-ipp") 0).2 ⟨1, 0⟩ (by decide)).2.2.2
      sample_world hello (List.replicate 40 0) 5 40).2 _ (by decide)⟩

end IntelCodec
